import Mathlib

/-!
Verification of the game-room worker (`src/index.js`, second revision):
the authoritative Gomoku room (`GomokuRoom`), the Xiangqi relay room
(`RelayRoom` with `game=xq`), the seat allocators, and the Xiangqi rule
engine (`XqEngine`).  All definitions are shallow embeddings of the
JavaScript source; machine coercions (`| 0`) are modelled explicitly.
-/

/-! ## JavaScript numeric coercion (`| 0`)

A JSON-decoded message field is either absent (`undefined`), a value whose
`ToNumber` is `NaN` (e.g. a non-numeric string or an object), `null`, a
boolean, or a finite number (modelled as a rational, of which every finite
IEEE double is one).  `x | 0` is ECMAScript `ToInt32(ToNumber(x))`:
truncate toward zero, reduce modulo 2^32 into `[-2^31, 2^31)`; `NaN`,
`undefined` and `null` become `0`, booleans become `0`/`1`. -/

inductive JVal where
  | undef : JVal
  | nanLike : JVal
  | nullv : JVal
  | boolv : Bool → JVal
  | num : ℚ → JVal
deriving DecidableEq

/-- Truncation toward zero, as in ECMAScript `ToIntegerOrInfinity`. -/
def jsTrunc (q : ℚ) : Int :=
  if q < 0 then -((-q).floor) else q.floor

/-- ECMAScript `ToInt32` of a message field (the `| 0` coercion). -/
def toInt32 : JVal → Int
  | .undef => 0
  | .nanLike => 0
  | .nullv => 0
  | .boolv b => if b then 1 else 0
  | .num q =>
      let n := jsTrunc q
      let m := n % 4294967296
      if m ≥ 2147483648 then m - 4294967296 else m

/-! ## Gomoku room (`GomokuRoom`) -/

def SIZE : Int := 19
def GOMOKU_BLACK : Nat := 1
def GOMOKU_WHITE : Nat := 2
def GM_GRACE_MS : Int := 3 * 60 * 1000

structure GmMove where
  r : Int
  c : Int
  p : Nat
deriving DecidableEq

/-- The `{ [BLACK]: bool, [WHITE]: bool }` vote objects. -/
structure GmVotes where
  black : Bool
  white : Bool
deriving DecidableEq

def GmVotes.get (v : GmVotes) (role : Nat) : Bool :=
  if role = GOMOKU_BLACK then v.black
  else if role = GOMOKU_WHITE then v.white
  else false

def GmVotes.set (v : GmVotes) (role : Nat) (b : Bool) : GmVotes :=
  if role = GOMOKU_BLACK then { v with black := b }
  else if role = GOMOKU_WHITE then { v with white := b }
  else v

def GmVotes.clear : GmVotes := ⟨false, false⟩

/-- The persisted `gm_room` record. -/
structure GmRoom where
  blackToken : String
  whiteToken : String
  blackLastSeen : Int
  whiteLastSeen : Int
  moves : List GmMove
  current : Nat
  gameOver : Bool
  winner : Nat
  reason : String
  rematch : GmVotes
  swap : GmVotes
deriving DecidableEq

/-- `GomokuRoom._defaultRoom()`. -/
def gmDefaultRoom : GmRoom where
  blackToken := ""
  whiteToken := ""
  blackLastSeen := 0
  whiteLastSeen := 0
  moves := []
  current := GOMOKU_BLACK
  gameOver := false
  winner := 0
  reason := ""
  rematch := GmVotes.clear
  swap := GmVotes.clear

/-- `GomokuRoom._roleFromToken(token, room)`. -/
def roleFromToken (token : String) (room : GmRoom) : Nat :=
  if token = "" then 0
  else if token = room.blackToken then GOMOKU_BLACK
  else if token = room.whiteToken then GOMOKU_WHITE
  else 0

/-- `isOccupied(moves, r, c)`. -/
def isOccupied (moves : List GmMove) (r c : Int) : Bool :=
  moves.any (fun m => m.r = r ∧ m.c = c)

/-- Membership of a same-coloured stone at `(r, c)` — the JS win check
builds the set `{ "r#c" | m ∈ moves, m.p = p }` and queries it. -/
def hasStone (moves : List GmMove) (p : Nat) (r c : Int) : Bool :=
  moves.any (fun m => m.p = p ∧ m.r = r ∧ m.c = c)

/-- Consecutive same-coloured stones in direction `(dr, dc)` from `(r, c)`
(the `for (k = 1; k < 5; k++) if … cnt++; else break;` loop). -/
def countDir (moves : List GmMove) (p : Nat) (r c dr dc : Int) : Nat :=
  if ¬ hasStone moves p (r + dr) (c + dc) then 0
  else if ¬ hasStone moves p (r + dr * 2) (c + dc * 2) then 1
  else if ¬ hasStone moves p (r + dr * 3) (c + dc * 3) then 2
  else if ¬ hasStone moves p (r + dr * 4) (c + dc * 4) then 3
  else 4

/-- `checkWin(moves, r, c, p)`: five in a row through `(r, c)` in one of
the four directions. -/
def checkWin (moves : List GmMove) (r c : Int) (p : Nat) : Bool :=
  [((1 : Int), (0 : Int)), (0, 1), (1, 1), (1, -1)].any
    (fun d =>
      1 + countDir moves p r c d.1 d.2 + countDir moves p r c (-d.1) (-d.2) ≥ 5)

/-- Per-socket attachment written by the Gomoku `fetch` handler. -/
structure GmAtt where
  token : String
deriving DecidableEq

/-- Client → server messages understood by `GomokuRoom.webSocketMessage`.
`move` carries its raw JSON coordinate fields. -/
inductive GmMsg where
  | move (r c : JVal)
  | timeout
  | rematch
  | swap
  | gm_leave
  | other
deriving DecidableEq

/-- Messages emitted by the Gomoku handler: `reject` is directed to the
sender, everything else is broadcast (the directed per-socket `role`
notifications after a swap are summarised by `roleMsgs`). -/
inductive GmOut where
  | reject (reason : String)
  | moveWin (r c : Int) (p win : Nat)
  | moveNext (r c : Int) (p next : Nat)
  | timeoutOver (p win : Nat) (reason : String)
  | rematchPending
  | swapPending
  | votes (rematch swap : GmVotes)
  | stateReset (current : Nat)
  | seats (black white : Bool)
  | roleMsgs
  | presence
deriving DecidableEq

/-- `GomokuRoom.webSocketMessage` for a `gomoku`-tagged socket: the room
record is loaded, the sender's role is re-derived from its attachment
token via `roleFromToken`, and the message is dispatched.  Returns the
room record as persisted afterwards together with the emitted messages. -/
def gmHandleMessage (room : GmRoom) (att : GmAtt) (msg : GmMsg) (now : Int) :
    GmRoom × List GmOut :=
  let role := roleFromToken att.token room
  let isPlayer := role = GOMOKU_BLACK ∨ role = GOMOKU_WHITE
  match msg with
  | .move rv cv =>
      if ¬ isPlayer then (room, [.reject "观战不能落子"])
      else if room.gameOver then (room, [.reject "对局已结束"])
      else if room.current ≠ role then (room, [.reject "还没轮到你"])
      else
        let r := toInt32 rv
        let c := toInt32 cv
        if r < 0 ∨ r ≥ SIZE ∨ c < 0 ∨ c ≥ SIZE then (room, [.reject "落子越界"])
        else if isOccupied room.moves r c then (room, [.reject "该点已有棋子"])
        else
          let room1 : GmRoom :=
            { room with
                moves := room.moves ++ [⟨r, c, role⟩]
                blackLastSeen := if role = GOMOKU_BLACK then now else room.blackLastSeen
                whiteLastSeen := if role = GOMOKU_WHITE then now else room.whiteLastSeen
                rematch := GmVotes.clear
                swap := GmVotes.clear }
          if checkWin room1.moves r c role then
            ({ room1 with gameOver := true, winner := role, reason := "五连" },
             [.moveWin r c role role])
          else
            let nxt := if role = GOMOKU_BLACK then GOMOKU_WHITE else GOMOKU_BLACK
            ({ room1 with current := nxt }, [.moveNext r c role nxt])
  | .timeout =>
      if ¬ isPlayer then (room, [.reject "观战不能落子"])
      else if room.gameOver then (room, [.reject "对局已结束"])
      else if room.current ≠ role then (room, [.reject "还没轮到你"])
      else
        let w := if role = GOMOKU_BLACK then GOMOKU_WHITE else GOMOKU_BLACK
        ({ room with gameOver := true, winner := w, reason := "超时判负" },
         [.timeoutOver role w "超时判负"])
  | .rematch =>
      if ¬ isPlayer then (room, [])
      else if ¬ room.gameOver then (room, [])
      else
        let room1 := { room with rematch := room.rematch.set role true }
        let outs1 : List GmOut := [.rematchPending, .votes room1.rematch room1.swap]
        if room1.rematch.get GOMOKU_BLACK ∧ room1.rematch.get GOMOKU_WHITE ∧
            room1.blackToken ≠ "" ∧ room1.whiteToken ≠ "" then
          let room2 : GmRoom :=
            { room1 with
                moves := [], current := GOMOKU_BLACK, gameOver := false,
                winner := 0, reason := "",
                rematch := GmVotes.clear, swap := GmVotes.clear }
          (room2, outs1 ++ [.stateReset room2.current, .votes room2.rematch room2.swap])
        else (room1, outs1)
  | .swap =>
      if ¬ isPlayer then (room, [])
      else if ¬ room.gameOver ∧ room.moves.length > 0 then (room, [])
      else
        let room1 := { room with swap := room.swap.set role true }
        let outs1 : List GmOut := [.swapPending, .votes room1.rematch room1.swap]
        if room1.swap.get GOMOKU_BLACK ∧ room1.swap.get GOMOKU_WHITE ∧
            room1.blackToken ≠ "" ∧ room1.whiteToken ≠ "" then
          let room2 : GmRoom :=
            { room1 with
                blackToken := room1.whiteToken
                whiteToken := room1.blackToken
                blackLastSeen := room1.whiteLastSeen
                whiteLastSeen := room1.blackLastSeen
                moves := [], current := GOMOKU_BLACK, gameOver := false,
                winner := 0, reason := "",
                rematch := GmVotes.clear, swap := GmVotes.clear }
          (room2,
           outs1 ++ [.seats (room2.blackToken ≠ "") (room2.whiteToken ≠ ""),
                     .roleMsgs, .stateReset room2.current,
                     .votes room2.rematch room2.swap])
        else (room1, outs1)
  | .gm_leave =>
      if ¬ isPlayer then (room, [])
      else
        let room1 : GmRoom :=
          if role = GOMOKU_BLACK ∧ att.token ≠ "" ∧ att.token = room.blackToken then
            { room with blackToken := "", blackLastSeen := 0 }
          else room
        let room2 : GmRoom :=
          if role = GOMOKU_WHITE ∧ att.token ≠ "" ∧ att.token = room1.whiteToken then
            { room1 with whiteToken := "", whiteLastSeen := 0 }
          else room1
        (room2, [.seats (room2.blackToken ≠ "") (room2.whiteToken ≠ ""), .presence])
  | .other => (room, [])

/-! ## Gomoku seat allocator (`GomokuRoom.fetch`)

`tokenParam` and `want` are the query parameters after `.trim()` /
`.toLowerCase()`; `online1` / `online2` are `_countOnlineByRoleWithRoom`
for BLACK / WHITE; `fresh` is the UUID `crypto.randomUUID()` would mint
(at most one mint happens per call). -/

structure GmAllocRes where
  you : Nat
  token : String
  room : GmRoom
deriving DecidableEq

def gmFetchAllocate (room : GmRoom) (tokenParam want : String)
    (online1 online2 : Nat) (now : Int) (fresh : String) : GmAllocRes :=
  let token := tokenParam
  let you : Nat :=
    if token ≠ "" ∧ token = room.blackToken then GOMOKU_BLACK
    else if token ≠ "" ∧ token = room.whiteToken then GOMOKU_WHITE
    else 0
  if you = 0 then
    let canStealBlack := room.blackToken ≠ "" ∧ online1 = 0 ∧
      now - room.blackLastSeen > GM_GRACE_MS
    let canStealWhite := room.whiteToken ≠ "" ∧ online2 = 0 ∧
      now - room.whiteLastSeen > GM_GRACE_MS
    let wantBlack := want = "black" ∨ want = "b" ∨ want = "1"
    let wantWhite := want = "white" ∨ want = "w" ∨ want = "2"
    let wantSpectate := want = "spectate" ∨ want = "watch" ∨ want = "0"
    let wantAuto := want = "auto" ∨ want = ""
    -- first try the black seat, then the white seat
    let st1 : Nat × String × GmRoom :=
      if ¬ wantSpectate ∧ (wantBlack ∨ wantAuto) ∧
          (room.blackToken = "" ∨ canStealBlack) then
        (GOMOKU_BLACK, fresh,
         { room with blackToken := fresh, blackLastSeen := now })
      else (0, token, room)
    let st2 : Nat × String × GmRoom :=
      if st1.1 = 0 ∧ ¬ wantSpectate ∧ (wantWhite ∨ wantAuto) ∧
          (st1.2.2.whiteToken = "" ∨ canStealWhite) then
        (GOMOKU_WHITE, fresh,
         { st1.2.2 with whiteToken := fresh, whiteLastSeen := now })
      else st1
    -- fallback mint for a seated role with an empty token (dead in practice)
    if (st2.1 = GOMOKU_BLACK ∨ st2.1 = GOMOKU_WHITE) ∧ st2.2.1 = "" then
      if st2.1 = GOMOKU_BLACK then
        ⟨st2.1, fresh, { st2.2.2 with blackToken := fresh }⟩
      else ⟨st2.1, fresh, { st2.2.2 with whiteToken := fresh }⟩
    else ⟨st2.1, st2.2.1, st2.2.2⟩
  else
    let room1 : GmRoom :=
      { room with
          blackLastSeen := if you = GOMOKU_BLACK then now else room.blackLastSeen
          whiteLastSeen := if you = GOMOKU_WHITE then now else room.whiteLastSeen }
    ⟨you, token, room1⟩

/-! ## Xiangqi room record and seat allocator (`RelayRoom._fetchXQ`) -/

def XQ_RED : Int := 1
def XQ_BLACK : Int := 2
def XQ_GRACE_MS : Int := 3 * 60 * 1000

structure XqPos where
  r : Int
  c : Int
deriving DecidableEq

/-- One element of the persisted `xq_room.moves` list:
`{from:{r,c}, to:{r,c}, p}`. -/
structure XqMoveRec where
  fromP : XqPos
  toP : XqPos
  p : Int
deriving DecidableEq

structure XqVotes where
  red : Bool
  black : Bool
deriving DecidableEq

def XqVotes.get (v : XqVotes) (role : Int) : Bool :=
  if role = XQ_RED then v.red
  else if role = XQ_BLACK then v.black
  else false

def XqVotes.set (v : XqVotes) (role : Int) (b : Bool) : XqVotes :=
  if role = XQ_RED then { v with red := b }
  else if role = XQ_BLACK then { v with black := b }
  else v

def XqVotes.clear : XqVotes := ⟨false, false⟩

/-- The persisted `xq_room` record (`RelayRoom._xqDefaultRoom`). -/
structure XqRoom where
  redToken : String
  blackToken : String
  redLastSeen : Int
  blackLastSeen : Int
  moves : List XqMoveRec
  current : Int
  gameOver : Bool
  winner : Int
  reason : String
  rematch : XqVotes
  swap : XqVotes
deriving DecidableEq

def xqDefaultRoom : XqRoom where
  redToken := ""
  blackToken := ""
  redLastSeen := 0
  blackLastSeen := 0
  moves := []
  current := XQ_RED
  gameOver := false
  winner := 0
  reason := ""
  rematch := XqVotes.clear
  swap := XqVotes.clear

structure XqAllocRes where
  you : Int
  token : String
  room : XqRoom
deriving DecidableEq

/-- `RelayRoom._fetchXQ` seat allocation (same shape as the Gomoku one;
`online1` / `online2` are `_xqCountOnlineByRole` for RED / BLACK). -/
def xqFetchAllocate (room : XqRoom) (tokenParam want : String)
    (online1 online2 : Nat) (now : Int) (fresh : String) : XqAllocRes :=
  let token := tokenParam
  let you : Int :=
    if token ≠ "" ∧ token = room.redToken then XQ_RED
    else if token ≠ "" ∧ token = room.blackToken then XQ_BLACK
    else 0
  if you = 0 then
    let canStealRed := room.redToken ≠ "" ∧ online1 = 0 ∧
      now - room.redLastSeen > XQ_GRACE_MS
    let canStealBlack := room.blackToken ≠ "" ∧ online2 = 0 ∧
      now - room.blackLastSeen > XQ_GRACE_MS
    let wantRed := want = "red" ∨ want = "r" ∨ want = "1"
    let wantBlack := want = "black" ∨ want = "b" ∨ want = "2"
    let wantSpectate := want = "spectate" ∨ want = "watch" ∨ want = "0"
    let wantAuto := want = "auto" ∨ want = ""
    let st1 : Int × String × XqRoom :=
      if ¬ wantSpectate ∧ (wantRed ∨ wantAuto) ∧
          (room.redToken = "" ∨ canStealRed) then
        (XQ_RED, fresh, { room with redToken := fresh, redLastSeen := now })
      else (0, token, room)
    let st2 : Int × String × XqRoom :=
      if st1.1 = 0 ∧ ¬ wantSpectate ∧ (wantBlack ∨ wantAuto) ∧
          (st1.2.2.blackToken = "" ∨ canStealBlack) then
        (XQ_BLACK, fresh,
         { st1.2.2 with blackToken := fresh, blackLastSeen := now })
      else st1
    if (st2.1 = XQ_RED ∨ st2.1 = XQ_BLACK) ∧ st2.2.1 = "" then
      if st2.1 = XQ_RED then
        ⟨st2.1, fresh, { st2.2.2 with redToken := fresh }⟩
      else ⟨st2.1, fresh, { st2.2.2 with blackToken := fresh }⟩
    else ⟨st2.1, st2.2.1, st2.2.2⟩
  else
    let room1 : XqRoom :=
      { room with
          redLastSeen := if you = XQ_RED then now else room.redLastSeen
          blackLastSeen := if you = XQ_BLACK then now else room.blackLastSeen }
    ⟨you, token, room1⟩

/-! ## Xiangqi rule engine (`XqEngine`) -/

def XQ_RED_COLOR : Int := 1
def XQ_BLACK_COLOR : Int := -1
def XQ_ROWS : Int := 10
def XQ_COLS : Int := 9

namespace XQ_ROLES

def K : Nat := 1
def A : Nat := 2
def E : Nat := 3
def H : Nat := 4
def R : Nat := 5
def C : Nat := 6
def P : Nat := 7

end XQ_ROLES

/-- A piece: `{ t: roleNumber, c: color }`. -/
structure XqPiece where
  t : Nat
  c : Int
deriving DecidableEq

abbrev XqBoard := List (List (Option XqPiece))

/-- The initial layout (`XQ_INIT_MAP`); `'0'` stands for the literal `0`
(empty cell). -/
def XQ_INIT_MAP : List (List Char) :=
  [['R','H','E','A','K','A','E','H','R'],
   ['0','0','0','0','0','0','0','0','0'],
   ['0','C','0','0','0','0','0','C','0'],
   ['P','0','P','0','P','0','P','0','P'],
   ['0','0','0','0','0','0','0','0','0'],
   ['0','0','0','0','0','0','0','0','0'],
   ['p','0','p','0','p','0','p','0','p'],
   ['0','c','0','0','0','0','0','c','0'],
   ['0','0','0','0','0','0','0','0','0'],
   ['r','h','e','a','k','a','e','h','r']]

/-- `XQ_CHAR_CFG`: lower case is red (`+1`), upper case black (`-1`). -/
def XQ_CHAR_CFG : Char → Option XqPiece
  | 'r' => some ⟨XQ_ROLES.R, XQ_RED_COLOR⟩
  | 'h' => some ⟨XQ_ROLES.H, XQ_RED_COLOR⟩
  | 'e' => some ⟨XQ_ROLES.E, XQ_RED_COLOR⟩
  | 'a' => some ⟨XQ_ROLES.A, XQ_RED_COLOR⟩
  | 'k' => some ⟨XQ_ROLES.K, XQ_RED_COLOR⟩
  | 'c' => some ⟨XQ_ROLES.C, XQ_RED_COLOR⟩
  | 'p' => some ⟨XQ_ROLES.P, XQ_RED_COLOR⟩
  | 'R' => some ⟨XQ_ROLES.R, XQ_BLACK_COLOR⟩
  | 'H' => some ⟨XQ_ROLES.H, XQ_BLACK_COLOR⟩
  | 'E' => some ⟨XQ_ROLES.E, XQ_BLACK_COLOR⟩
  | 'A' => some ⟨XQ_ROLES.A, XQ_BLACK_COLOR⟩
  | 'K' => some ⟨XQ_ROLES.K, XQ_BLACK_COLOR⟩
  | 'C' => some ⟨XQ_ROLES.C, XQ_BLACK_COLOR⟩
  | 'P' => some ⟨XQ_ROLES.P, XQ_BLACK_COLOR⟩
  | _ => none

/-- A move object produced by the generator:
`{ from, to, capture: piece-or-null }`. -/
structure XqMove where
  fromP : XqPos
  toP : XqPos
  capture : Option XqPiece
deriving DecidableEq

structure XqEngine where
  board : XqBoard
  turn : Int
deriving DecidableEq

/-- `XqEngine.init()`: fill the board from the char map, red to move. -/
def XqEngine.start : XqEngine :=
  ⟨XQ_INIT_MAP.map (fun row => row.map XQ_CHAR_CFG), XQ_RED_COLOR⟩

/-- Read `board[r][c]` (`undefined`/out of range ↦ `none`). -/
def bget (b : XqBoard) (r c : Int) : Option XqPiece :=
  if 0 ≤ r ∧ 0 ≤ c then (b.getD r.toNat []).getD c.toNat none else none

/-- Write `board[r][c] = v` (in-range cells only, as in the source). -/
def bset (b : XqBoard) (r c : Int) (v : Option XqPiece) : XqBoard :=
  if 0 ≤ r ∧ 0 ≤ c then b.set r.toNat ((b.getD r.toNat []).set c.toNat v)
  else b

/-- In-bounds test `tr>=0 && tr<XQ_ROWS && tc>=0 && tc<XQ_COLS`. -/
def xqInB (r c : Int) : Bool :=
  0 ≤ r ∧ r < XQ_ROWS ∧ 0 ≤ c ∧ c < XQ_COLS

/-- The `push(tr, tc)` closure of `getRawMoves`: bounds-check, then admit
the square unless it holds an own piece; `capture` is the occupant. -/
def pushMove (b : XqBoard) (color : Int) (r c tr tc : Int) : List XqMove :=
  if xqInB tr tc then
    match bget b tr tc with
    | none => [⟨⟨r, c⟩, ⟨tr, tc⟩, none⟩]
    | some t => if t.c ≠ color then [⟨⟨r, c⟩, ⟨tr, tc⟩, some t⟩] else []
  else []

/-- Chariot ray (`for (let i=1;;i++)` in one direction): slide over empty
squares, stop at the first occupied square, capturing it when hostile.
`i` is the step count; ten units of fuel always outlast the board. -/
def rookRay (b : XqBoard) (color : Int) (r c dr dc : Int) :
    Nat → Int → List XqMove
  | 0, _ => []
  | fuel + 1, i =>
      let tr := r + dr * i
      let tc := c + dc * i
      if ¬ xqInB tr tc then []
      else
        match bget b tr tc with
        | none => ⟨⟨r, c⟩, ⟨tr, tc⟩, none⟩ :: rookRay b color r c dr dc fuel (i + 1)
        | some t => if t.c ≠ color then [⟨⟨r, c⟩, ⟨tr, tc⟩, some t⟩] else []

/-- Cannon ray: before the first occupied square (`platform = false`) emit
non-captures on empty squares; after it, skip empty squares and stop at
the next occupied square, capturing it when hostile. -/
def cannonRay (b : XqBoard) (color : Int) (r c dr dc : Int) :
    Nat → Int → Bool → List XqMove
  | 0, _, _ => []
  | fuel + 1, i, platform =>
      let tr := r + dr * i
      let tc := c + dc * i
      if ¬ xqInB tr tc then []
      else
        match bget b tr tc, platform with
        | none, false =>
            ⟨⟨r, c⟩, ⟨tr, tc⟩, none⟩ :: cannonRay b color r c dr dc fuel (i + 1) false
        | some _, false => cannonRay b color r c dr dc fuel (i + 1) true
        | none, true => cannonRay b color r c dr dc fuel (i + 1) true
        | some t, true => if t.c ≠ color then [⟨⟨r, c⟩, ⟨tr, tc⟩, some t⟩] else []

def xqOrthoDirs : List (Int × Int) := [(0, 1), (0, -1), (1, 0), (-1, 0)]

/-- `XqEngine.getRawMoves(r, c, type, color)` — pseudo-legal moves of one
piece, no self-check filtering. -/
def getRawMoves (b : XqBoard) (r c : Int) (type : Nat) (color : Int) :
    List XqMove :=
  if type = XQ_ROLES.R then
    xqOrthoDirs.flatMap (fun d => rookRay b color r c d.1 d.2 10 1)
  else if type = XQ_ROLES.C then
    xqOrthoDirs.flatMap (fun d => cannonRay b color r c d.1 d.2 10 1 false)
  else if type = XQ_ROLES.H then
    ([((2:Int),(1:Int)),(2,-1),(-2,1),(-2,-1),(1,2),(1,-2),(-1,2),(-1,-2)]).flatMap
      (fun d =>
        let tr := r + d.1
        let tc := c + d.2
        let lr := r + (if d.1.natAbs = 2 then Int.sign d.1 else 0)
        let lc := c + (if d.2.natAbs = 2 then Int.sign d.2 else 0)
        if xqInB tr tc ∧ bget b lr lc = none then pushMove b color r c tr tc
        else [])
  else if type = XQ_ROLES.E then
    ([((2:Int),(2:Int)),(2,-2),(-2,2),(-2,-2)]).flatMap
      (fun d =>
        let tr := r + d.1
        let tc := c + d.2
        let er := r + d.1 / 2
        let ec := c + d.2 / 2
        if (color = XQ_RED_COLOR ∧ tr < 5) ∨ (color = XQ_BLACK_COLOR ∧ tr > 4) then []
        else if xqInB tr tc ∧ bget b er ec = none then pushMove b color r c tr tc
        else [])
  else if type = XQ_ROLES.A then
    ([((1:Int),(1:Int)),(1,-1),(-1,1),(-1,-1)]).flatMap
      (fun d =>
        let tr := r + d.1
        let tc := c + d.2
        if tc < 3 ∨ tc > 5 then []
        else if (color = XQ_RED_COLOR ∧ tr < 7) ∨ (color = XQ_BLACK_COLOR ∧ tr > 2) then []
        else pushMove b color r c tr tc)
  else if type = XQ_ROLES.K then
    ([((1:Int),(0:Int)),(-1,0),(0,1),(0,-1)]).flatMap
      (fun d =>
        let tr := r + d.1
        let tc := c + d.2
        if tc < 3 ∨ tc > 5 then []
        else if (color = XQ_RED_COLOR ∧ tr < 7) ∨ (color = XQ_BLACK_COLOR ∧ tr > 2) then []
        else pushMove b color r c tr tc)
  else if type = XQ_ROLES.P then
    let dir : Int := if color = XQ_RED_COLOR then -1 else 1
    pushMove b color r c (r + dir) c ++
      (if (color = XQ_RED_COLOR ∧ r ≤ 4) ∨ (color = XQ_BLACK_COLOR ∧ r ≥ 5) then
        pushMove b color r c r (c + 1) ++ pushMove b color r c r (c - 1)
      else [])
  else []

/-- All `(r, c)` cells in the scan order of the source's nested loops. -/
def allCells : List (Int × Int) :=
  (List.range 10).flatMap (fun r => (List.range 9).map (fun c => ((r : Int), (c : Int))))

/-- The king scan of `getCheckSource` (last match wins, as in the loop). -/
def findKing (b : XqBoard) (color : Int) : Option XqPos :=
  allCells.foldl
    (fun acc rc =>
      match bget b rc.1 rc.2 with
      | some p => if p.t = XQ_ROLES.K ∧ p.c = color then some ⟨rc.1, rc.2⟩ else acc
      | none => acc)
    none

/-- Rows strictly between two rows (`for (i=min+1; i<max; i++)`). -/
def rowsBetween (a b : Int) : List Int :=
  (List.range (((max a b) - (min a b) - 1).toNat)).map (fun k => min a b + 1 + k)

inductive XqCheckSrc where
  | FLY
  | NORMAL
deriving DecidableEq

/-- `XqEngine.getCheckSource(color)`: flying-general first, then any enemy
piece with a pseudo-legal move onto the king's square. -/
def XqEngine.getCheckSource (e : XqEngine) (color : Int) : Option XqCheckSrc :=
  match findKing e.board color with
  | none => none
  | some king =>
      let enemy := if color = XQ_RED_COLOR then XQ_BLACK_COLOR else XQ_RED_COLOR
      if allCells.any (fun rc =>
          match bget e.board rc.1 rc.2 with
          | some p =>
              p.t = XQ_ROLES.K ∧ p.c = enemy ∧ rc.2 = king.c ∧
                ¬ (rowsBetween rc.1 king.r).any
                    (fun i => (bget e.board i rc.2).isSome)
          | none => false) then
        some .FLY
      else if allCells.any (fun rc =>
          match bget e.board rc.1 rc.2 with
          | some p =>
              p.c = enemy ∧
                (getRawMoves e.board rc.1 rc.2 p.t enemy).any
                  (fun m => m.toP.r = king.r ∧ m.toP.c = king.c)
          | none => false) then
        some .NORMAL
      else none

def XqEngine.isChecked (e : XqEngine) (color : Int) : Bool :=
  (e.getCheckSource color).isSome

/-- `XqEngine.checkSimulate(color, move)`: apply, test check, (undo). -/
def XqEngine.checkSimulate (e : XqEngine) (color : Int) (move : XqMove) : Bool :=
  let piece := bget e.board move.fromP.r move.fromP.c
  let b1 := bset e.board move.toP.r move.toP.c piece
  let b2 := bset b1 move.fromP.r move.fromP.c none
  XqEngine.isChecked ⟨b2, e.turn⟩ color

/-- `XqEngine.getMoves(color)`: pseudo-legal moves of every piece of
`color`, filtered by check simulation. -/
def XqEngine.getMoves (e : XqEngine) (color : Int) : List XqMove :=
  allCells.flatMap (fun rc =>
    match bget e.board rc.1 rc.2 with
    | some p =>
        if p.c = color then
          (getRawMoves e.board rc.1 rc.2 p.t color).filter
            (fun m => ¬ e.checkSimulate color m)
        else []
    | none => [])

/-- `XqEngine.findLegalMove(fr, fc, tr, tc)`. -/
def XqEngine.findLegalMove (e : XqEngine) (fr fc tr tc : Int) : Option XqMove :=
  (e.getMoves e.turn).find?
    (fun m => m.fromP.r = fr ∧ m.fromP.c = fc ∧ m.toP.r = tr ∧ m.toP.c = tc)

/-- `XqEngine.applyMove(move)`. -/
def XqEngine.applyMove (e : XqEngine) (move : XqMove) : XqEngine :=
  let piece := bget e.board move.fromP.r move.fromP.c
  let b1 := bset e.board move.toP.r move.toP.c piece
  let b2 := bset b1 move.fromP.r move.fromP.c none
  ⟨b2, if e.turn = XQ_RED_COLOR then XQ_BLACK_COLOR else XQ_RED_COLOR⟩

/-- The `| 0` coercion applied to an already-numeric integer. -/
def int32wrap (n : Int) : Int :=
  let m := n % 4294967296
  if m ≥ 2147483648 then m - 4294967296 else m

/-- One replay step of `buildXqEngineFromMoves`: look the recorded move up
among the current legal moves, skip it (`continue`) if absent. -/
def xqStep (e : XqEngine) (m : XqMoveRec) : XqEngine :=
  match e.findLegalMove (int32wrap m.fromP.r) (int32wrap m.fromP.c)
      (int32wrap m.toP.r) (int32wrap m.toP.c) with
  | none => e
  | some legal => e.applyMove legal

/-- `buildXqEngineFromMoves(moves)`. -/
def buildXqEngineFromMoves (moves : List XqMoveRec) : XqEngine :=
  moves.foldl xqStep XqEngine.start

/-! ## Xiangqi message handler (`RelayRoom._handleXqMessage`) -/

/-- Per-socket attachment written by `_fetchXQ`:
`{ game:"xq", role, token }`.  Unlike the Gomoku room, the role is cached
here at connect time. -/
structure XqAtt where
  role : Int
  token : String
deriving DecidableEq

/-- Client → server messages of the Xiangqi room; `xq_move` carries the
raw JSON coordinate fields `from.r`, `from.c`, `to.r`, `to.c` (an absent
`from`/`to` object yields `undefined` fields). -/
inductive XqMsg where
  | xq_move (frv fcv trv tcv : JVal)
  | xq_timeout
  | xq_rematch
  | xq_swap
  | xq_leave
  | other
deriving DecidableEq

/-- Messages emitted by the Xiangqi handler.  `reject` is directed to the
sender (`sync = true` when a fresh `init` is also re-sent); `closeAll` is
the post-swap forced close of every socket. -/
inductive XqOut where
  | reject (reason : String) (sync : Bool)
  | xqMove (fr fc tr tc : Int) (p next : Int) (win : Option (Int × String))
  | xqOver (winner : Int) (reason : String)
  | xqVotes (rematch swap : XqVotes)
  | xqSeats (red black : Bool)
  | xqReset (reason : String) (current : Int)
  | presence
  | closeAll
deriving DecidableEq

/-- `RelayRoom._handleXqMessage(ws, att, msg)`: note
`const role = att.role | 0` — the role cached in the attachment, not a
token lookup. -/
def xqHandleMessage (room : XqRoom) (att : XqAtt) (msg : XqMsg) (now : Int) :
    XqRoom × List XqOut :=
  let role := int32wrap att.role
  let isPlayer := role = XQ_RED ∨ role = XQ_BLACK
  match msg with
  | .xq_move frv fcv trv tcv =>
      if ¬ isPlayer then (room, [.reject "观战不能落子" false])
      else if room.gameOver then (room, [.reject "对局已结束" false])
      else if room.current ≠ role then (room, [.reject "还没轮到你" false])
      else
        let fr := toInt32 frv
        let fc := toInt32 fcv
        let tr := toInt32 trv
        let tc := toInt32 tcv
        if fr < 0 ∨ fr ≥ 10 ∨ fc < 0 ∨ fc ≥ 9 then (room, [.reject "起点越界" false])
        else if tr < 0 ∨ tr ≥ 10 ∨ tc < 0 ∨ tc ≥ 9 then (room, [.reject "终点越界" false])
        else
          let game := buildXqEngineFromMoves room.moves
          let color : Int := if role = XQ_RED then 1 else -1
          if game.turn ≠ color then (room, [.reject "状态不同步（回合不一致）" true])
          else
            match game.findLegalMove fr fc tr tc with
            | none => (room, [.reject "非法走法" true])
            | some legal =>
                let game1 := game.applyMove legal
                let nextRole := if role = XQ_RED then XQ_BLACK else XQ_RED
                let nextColor : Int := if nextRole = XQ_RED then 1 else -1
                let nextMoves := game1.getMoves nextColor
                let terminal := nextMoves.isEmpty
                let reason :=
                  if terminal then
                    (if game1.isChecked nextColor then "绝杀" else "困毙")
                  else ""
                let room1 : XqRoom :=
                  { room with
                      moves := room.moves ++ [⟨⟨fr, fc⟩, ⟨tr, tc⟩, role⟩]
                      current := nextRole
                      gameOver := if terminal then true else room.gameOver
                      winner := if terminal then role else room.winner
                      reason := reason
                      rematch := XqVotes.clear
                      swap := XqVotes.clear
                      redLastSeen := if role = XQ_RED then now else room.redLastSeen
                      blackLastSeen := if role = XQ_BLACK then now else room.blackLastSeen }
                (room1,
                 [.xqMove fr fc tr tc role room1.current
                    (if terminal then some (role, reason) else none)] ++
                 (if room1.gameOver then [.xqOver room1.winner room1.reason] else []))
  | .xq_timeout =>
      if ¬ isPlayer then (room, [.reject "观战不能落子" false])
      else if room.gameOver then (room, [.reject "对局已结束" false])
      else if room.current ≠ role then (room, [.reject "还没轮到你" false])
      else
        let w := if role = XQ_RED then XQ_BLACK else XQ_RED
        ({ room with gameOver := true, winner := w, reason := "超时判负" },
         [.xqOver w "超时判负"])
  | .xq_rematch =>
      if ¬ isPlayer then (room, [])
      else if ¬ room.gameOver then (room, [])
      else
        let room1 := { room with rematch := room.rematch.set role true }
        let outs1 : List XqOut := [.xqVotes room1.rematch room1.swap]
        if room1.rematch.get XQ_RED ∧ room1.rematch.get XQ_BLACK ∧
            room1.redToken ≠ "" ∧ room1.blackToken ≠ "" then
          let room2 : XqRoom :=
            { room1 with
                moves := [], current := XQ_RED, gameOver := false,
                winner := 0, reason := "",
                rematch := XqVotes.clear, swap := XqVotes.clear }
          (room2,
           outs1 ++ [.xqReset "rematch" room2.current,
                     .xqVotes room2.rematch room2.swap])
        else (room1, outs1)
  | .xq_swap =>
      if ¬ isPlayer then (room, [])
      else if ¬ room.gameOver ∧ room.moves.length > 0 then (room, [])
      else
        let room1 := { room with swap := room.swap.set role true }
        let outs1 : List XqOut := [.xqVotes room1.rematch room1.swap]
        if room1.swap.get XQ_RED ∧ room1.swap.get XQ_BLACK ∧
            room1.redToken ≠ "" ∧ room1.blackToken ≠ "" then
          let room2 : XqRoom :=
            { room1 with
                redToken := room1.blackToken
                blackToken := room1.redToken
                redLastSeen := room1.blackLastSeen
                blackLastSeen := room1.redLastSeen
                moves := [], current := XQ_RED, gameOver := false,
                winner := 0, reason := "",
                rematch := XqVotes.clear, swap := XqVotes.clear }
          (room2,
           outs1 ++ [.xqSeats (room2.redToken ≠ "") (room2.blackToken ≠ ""),
                     .xqReset "swap" room2.current, .closeAll])
        else (room1, outs1)
  | .xq_leave =>
      if ¬ isPlayer then (room, [])
      else
        let room1 : XqRoom :=
          if role = XQ_RED ∧ att.token ≠ "" ∧ att.token = room.redToken then
            { room with redToken := "", redLastSeen := 0 }
          else room
        let room2 : XqRoom :=
          if role = XQ_BLACK ∧ att.token ≠ "" ∧ att.token = room1.blackToken then
            { room1 with blackToken := "", blackLastSeen := 0 }
          else room1
        (room2, [.xqSeats (room2.redToken ≠ "") (room2.blackToken ≠ ""), .presence])
  | .other => (room, [])

/-! ## Concrete sample data used by witnesses -/

/-- A Gomoku room with both seats held and an empty board. -/
def gmSampleRoom : GmRoom :=
  { gmDefaultRoom with blackToken := "tB", whiteToken := "tW" }

/-- A Gomoku room in a finished game with both seats held. -/
def gmSampleOverRoom : GmRoom :=
  { gmDefaultRoom with
      blackToken := "tB", whiteToken := "tW",
      gameOver := true, winner := GOMOKU_WHITE, reason := "五连",
      moves := [⟨0, 0, 1⟩] }

/-- A Xiangqi room with both seats held and no moves played. -/
def xqSampleRoom : XqRoom :=
  { xqDefaultRoom with redToken := "tR", blackToken := "tQ" }

/-- A Xiangqi room whose red seat token has been replaced (stolen) since
the connection holding `"oldStolen"` attached. -/
def xqStolenRoom : XqRoom :=
  { xqDefaultRoom with redToken := "newOwner", blackToken := "tQ" }

/-- A fresh two-seat Gomoku room in which white has already voted to
swap sides. -/
def gmSwapVoteRoom : GmRoom :=
  { gmDefaultRoom with
      blackToken := "tB", whiteToken := "tW", swap := ⟨false, true⟩ }

/-- A Gomoku room whose black seat has been idle since time 0. -/
def gmIdleRoom : GmRoom :=
  { gmDefaultRoom with blackToken := "oldBlack", blackLastSeen := 0 }


/-- The board cell `i` steps from `(r, c)` along `(dr, dc)`. -/
def rayCell (b : XqBoard) (r c dr dc : Int) (i : Nat) : Option XqPiece :=
  bget b (r + dr * i) (c + dc * i)

/-- The non-capturing cannon move to step `k` of a ray. -/
def ncMove (r c dr dc : Int) (k : Nat) : XqMove :=
  ⟨⟨r, c⟩, ⟨r + dr * k, c + dc * k⟩, none⟩

/-- The capturing cannon move to step `k` of a ray, taking `t`. -/
def capMove (r c dr dc : Int) (k : Nat) (t : XqPiece) : XqMove :=
  ⟨⟨r, c⟩, ⟨r + dr * k, c + dc * k⟩, some t⟩

/-- The specified cannon behaviour on one ray: non-captures are exactly
the empty squares before the first occupied square; the only capture is
an enemy piece behind exactly one intervening occupied square (screen). -/
def cannonRaySpec (b : XqBoard) (color : Int) (r c dr dc : Int)
    (m : XqMove) : Prop :=
  ∃ k : Nat, 1 ≤ k ∧
    (∀ j : Nat, 1 ≤ j → j ≤ k → xqInB (r + dr * j) (c + dc * j) = true) ∧
    (((∀ j : Nat, 1 ≤ j → j ≤ k → rayCell b r c dr dc j = none) ∧
        m = ncMove r c dr dc k) ∨
      ∃ s : Nat, ∃ t : XqPiece, 1 ≤ s ∧ s < k ∧
        (rayCell b r c dr dc s).isSome = true ∧
        (∀ j : Nat, 1 ≤ j → j < k → j ≠ s → rayCell b r c dr dc j = none) ∧
        rayCell b r c dr dc k = some t ∧ t.c ≠ color ∧
        m = capMove r c dr dc k t)

/-- Reconstruct a board literal from rows of piece letters (`'0'` = empty,
letter code as in `XQ_CHAR_CFG`). -/
def boardOfStrings (rows : List String) : XqBoard :=
  rows.map (fun s => s.toList.map XQ_CHAR_CFG)

/-- A twelve-ply legal line after which red mates in one: black walls its
own king in (cannons to `(1,3)`/`(1,5)`, horse to `(1,4)`) while red
routes a cannon to `(2,7)`; red's `(2,7) → (2,4)` then checkmates. -/
def xqMateLine : List XqMoveRec :=
  [⟨⟨6,0⟩,⟨5,0⟩,1⟩, ⟨⟨2,7⟩,⟨1,7⟩,2⟩, ⟨⟨6,2⟩,⟨5,2⟩,1⟩,
   ⟨⟨1,7⟩,⟨1,5⟩,2⟩, ⟨⟨7,7⟩,⟨2,7⟩,1⟩, ⟨⟨2,1⟩,⟨1,1⟩,2⟩,
   ⟨⟨6,6⟩,⟨5,6⟩,1⟩, ⟨⟨1,1⟩,⟨1,3⟩,2⟩, ⟨⟨6,8⟩,⟨5,8⟩,1⟩,
   ⟨⟨0,1⟩,⟨2,2⟩,2⟩, ⟨⟨5,0⟩,⟨4,0⟩,1⟩, ⟨⟨2,2⟩,⟨1,4⟩,2⟩]

/-- A Xiangqi room holding the mate-in-one position, red to move. -/
def xqMateRoom : XqRoom :=
  { xqDefaultRoom with redToken := "tR", blackToken := "tQ", moves := xqMateLine }

/-- The mating move object found by the engine. -/
def xqMateLegal : XqMove := ⟨⟨2, 7⟩, ⟨2, 4⟩, none⟩

/-- The engine ply 1 of `xqMateLine`. -/
def xqMateE1 : XqEngine :=
  ⟨boardOfStrings
    ["RHEAKAEHR", "000000000", "0C00000C0", "P0P0P0P0P", "000000000",
     "p00000000", "00p0p0p0p", "0c00000c0", "000000000", "rheakaehr"], -1⟩

/-- The engine ply 2 of `xqMateLine`. -/
def xqMateE2 : XqEngine :=
  ⟨boardOfStrings
    ["RHEAKAEHR", "0000000C0", "0C0000000", "P0P0P0P0P", "000000000",
     "p00000000", "00p0p0p0p", "0c00000c0", "000000000", "rheakaehr"], 1⟩

/-- The engine ply 3 of `xqMateLine`. -/
def xqMateE3 : XqEngine :=
  ⟨boardOfStrings
    ["RHEAKAEHR", "0000000C0", "0C0000000", "P0P0P0P0P", "000000000",
     "p0p000000", "0000p0p0p", "0c00000c0", "000000000", "rheakaehr"], -1⟩

/-- The engine ply 4 of `xqMateLine`. -/
def xqMateE4 : XqEngine :=
  ⟨boardOfStrings
    ["RHEAKAEHR", "00000C000", "0C0000000", "P0P0P0P0P", "000000000",
     "p0p000000", "0000p0p0p", "0c00000c0", "000000000", "rheakaehr"], 1⟩

/-- The engine ply 5 of `xqMateLine`. -/
def xqMateE5 : XqEngine :=
  ⟨boardOfStrings
    ["RHEAKAEHR", "00000C000", "0C00000c0", "P0P0P0P0P", "000000000",
     "p0p000000", "0000p0p0p", "0c0000000", "000000000", "rheakaehr"], -1⟩

/-- The engine ply 6 of `xqMateLine`. -/
def xqMateE6 : XqEngine :=
  ⟨boardOfStrings
    ["RHEAKAEHR", "0C000C000", "0000000c0", "P0P0P0P0P", "000000000",
     "p0p000000", "0000p0p0p", "0c0000000", "000000000", "rheakaehr"], 1⟩

/-- The engine ply 7 of `xqMateLine`. -/
def xqMateE7 : XqEngine :=
  ⟨boardOfStrings
    ["RHEAKAEHR", "0C000C000", "0000000c0", "P0P0P0P0P", "000000000",
     "p0p000p00", "0000p000p", "0c0000000", "000000000", "rheakaehr"], -1⟩

/-- The engine ply 8 of `xqMateLine`. -/
def xqMateE8 : XqEngine :=
  ⟨boardOfStrings
    ["RHEAKAEHR", "000C0C000", "0000000c0", "P0P0P0P0P", "000000000",
     "p0p000p00", "0000p000p", "0c0000000", "000000000", "rheakaehr"], 1⟩

/-- The engine ply 9 of `xqMateLine`. -/
def xqMateE9 : XqEngine :=
  ⟨boardOfStrings
    ["RHEAKAEHR", "000C0C000", "0000000c0", "P0P0P0P0P", "000000000",
     "p0p000p0p", "0000p0000", "0c0000000", "000000000", "rheakaehr"], -1⟩

/-- The engine ply 10 of `xqMateLine`. -/
def xqMateE10 : XqEngine :=
  ⟨boardOfStrings
    ["R0EAKAEHR", "000C0C000", "00H0000c0", "P0P0P0P0P", "000000000",
     "p0p000p0p", "0000p0000", "0c0000000", "000000000", "rheakaehr"], 1⟩

/-- The engine ply 11 of `xqMateLine`. -/
def xqMateE11 : XqEngine :=
  ⟨boardOfStrings
    ["R0EAKAEHR", "000C0C000", "00H0000c0", "P0P0P0P0P", "p00000000",
     "00p000p0p", "0000p0000", "0c0000000", "000000000", "rheakaehr"], -1⟩

/-- The engine ply 12 of `xqMateLine`. -/
def xqMateE12 : XqEngine :=
  ⟨boardOfStrings
    ["R0EAKAEHR", "000CHC000", "0000000c0", "P0P0P0P0P", "p00000000",
     "00p000p0p", "0000p0000", "0c0000000", "000000000", "rheakaehr"], 1⟩

/-- Incremental server-accepted Xiangqi play: starting from the initial
engine, each appended record is found legal by `findLegalMove` on the
engine built so far and is applied with `applyMove` — exactly the
accept-and-apply path of `_handleXqMessage`. -/
inductive XqIncremental : List XqMoveRec → XqEngine → Prop where
  | nil : XqIncremental [] XqEngine.start
  | step (ms : List XqMoveRec) (e : XqEngine) (rec : XqMoveRec) (m : XqMove) :
      XqIncremental ms e →
      e.findLegalMove (int32wrap rec.fromP.r) (int32wrap rec.fromP.c)
          (int32wrap rec.toP.r) (int32wrap rec.toP.c) = some m →
      XqIncremental (ms ++ [rec]) (e.applyMove m)

/-! ## Theorems -/

/-- A list never equals itself with an element appended. -/
theorem list_ne_append_singleton {α : Type} (l : List α) (x : α) :
    l ≠ l ++ [x] := by
  intro h
  have := congrArg List.length h
  simp at this

/-- **C2.** A Gomoku `move {r,c}` message is accepted (i.e. the move is
appended) iff the sender's derived role is BLACK or WHITE, the game is not
over, `current` equals that role, the coerced `r` and `c` lie in
`[0, 19)`, and `(r, c)` is unoccupied; on acceptance the move is appended
with `p = role`, the mover's `lastSeen` becomes `now`, both vote maps are
cleared, and either the game ends with `winner = role`, `reason = "五连"`
when `checkWin` fires, or `current` flips to the other role. -/
theorem gm_move_correct (room : GmRoom) (att : GmAtt) (rv cv : JVal) (now : Int) :
    ((gmHandleMessage room att (.move rv cv) now).1.moves =
        room.moves ++ [⟨toInt32 rv, toInt32 cv, roleFromToken att.token room⟩] ↔
      ((roleFromToken att.token room = GOMOKU_BLACK ∨
          roleFromToken att.token room = GOMOKU_WHITE) ∧
        room.gameOver = false ∧
        room.current = roleFromToken att.token room ∧
        0 ≤ toInt32 rv ∧ toInt32 rv < SIZE ∧ 0 ≤ toInt32 cv ∧ toInt32 cv < SIZE ∧
        isOccupied room.moves (toInt32 rv) (toInt32 cv) = false)) ∧
    (((roleFromToken att.token room = GOMOKU_BLACK ∨
          roleFromToken att.token room = GOMOKU_WHITE) ∧
        room.gameOver = false ∧
        room.current = roleFromToken att.token room ∧
        0 ≤ toInt32 rv ∧ toInt32 rv < SIZE ∧ 0 ≤ toInt32 cv ∧ toInt32 cv < SIZE ∧
        isOccupied room.moves (toInt32 rv) (toInt32 cv) = false) →
      gmHandleMessage room att (.move rv cv) now =
        (let role := roleFromToken att.token room
         let r := toInt32 rv
         let c := toInt32 cv
         let moves1 := room.moves ++ [⟨r, c, role⟩]
         let room1 : GmRoom :=
           { room with
               moves := moves1
               blackLastSeen := if role = GOMOKU_BLACK then now else room.blackLastSeen
               whiteLastSeen := if role = GOMOKU_WHITE then now else room.whiteLastSeen
               rematch := GmVotes.clear
               swap := GmVotes.clear }
         if checkWin moves1 r c role then
           ({ room1 with gameOver := true, winner := role, reason := "五连" },
            [.moveWin r c role role])
         else
           (({ room1 with
                current := if role = GOMOKU_BLACK then GOMOKU_WHITE else GOMOKU_BLACK } : GmRoom),
            [.moveNext r c role
              (if role = GOMOKU_BLACK then GOMOKU_WHITE else GOMOKU_BLACK)]))) := by
  have hne := list_ne_append_singleton room.moves
    (⟨toInt32 rv, toInt32 cv, roleFromToken att.token room⟩ : GmMove)
  simp only [gmHandleMessage]
  split_ifs with h1 h2 h3 h4 h5 h6 <;> refine ⟨?_, ?_⟩ <;> simp_all <;> omega

/-- Witness for C2: black's opening move at `(9, 9)` in a fresh two-seat
room is accepted and appended. -/
theorem gm_move_correct_witness :
    (gmHandleMessage gmSampleRoom ⟨"tB"⟩ (GmMsg.move (.num 9) (.num 9)) 5).1.moves =
      gmSampleRoom.moves ++
        [⟨toInt32 (.num 9), toInt32 (.num 9), roleFromToken "tB" gmSampleRoom⟩] :=
  ((gm_move_correct gmSampleRoom ⟨"tB"⟩ (.num 9) (.num 9) 5).1).mpr (by decide)

/-- **C8 (amended).** A connection without player authority (derived role
0 in the Gomoku room, cached role neither RED nor BLACK in the Xiangqi
room) never changes the persisted record; `move`/`timeout` (and
`xq_move`/`xq_timeout`) are answered with a directed
`reject("观战不能落子")`, while `rematch`, `swap` and `leave` (and their
`xq_` variants) are silently ignored with no reject. -/
theorem spectator_no_mutation
    (room : GmRoom) (att : GmAtt) (msg : GmMsg)
    (xroom : XqRoom) (xatt : XqAtt) (xmsg : XqMsg) (now : Int)
    (hgm : roleFromToken att.token room = 0)
    (hxq : int32wrap xatt.role ≠ XQ_RED ∧ int32wrap xatt.role ≠ XQ_BLACK) :
    (gmHandleMessage room att msg now).1 = room ∧
    (gmHandleMessage room att msg now).2 =
      (match msg with
       | .move _ _ => [.reject "观战不能落子"]
       | .timeout => [.reject "观战不能落子"]
       | _ => []) ∧
    (xqHandleMessage xroom xatt xmsg now).1 = xroom ∧
    (xqHandleMessage xroom xatt xmsg now).2 =
      (match xmsg with
       | .xq_move _ _ _ _ => [.reject "观战不能落子" false]
       | .xq_timeout => [.reject "观战不能落子" false]
       | _ => []) := by
  obtain ⟨hx1, hx2⟩ := hxq
  cases msg <;> cases xmsg <;>
    simp_all [gmHandleMessage, xqHandleMessage, GOMOKU_BLACK, GOMOKU_WHITE]

/-- Witness for the amended C8: a tokenless spectator's `move` leaves a
fresh two-seat room unchanged. -/
theorem spectator_no_mutation_witness :
    (gmHandleMessage gmSampleRoom ⟨""⟩ (GmMsg.move .undef .undef) 0).1 = gmSampleRoom :=
  (spectator_no_mutation gmSampleRoom ⟨""⟩ (GmMsg.move .undef .undef)
    xqSampleRoom ⟨0, ""⟩ XqMsg.xq_rematch 0 (by decide) (by decide)).1

/-- Counterexample to C8 as stated: a spectator's `rematch` in a finished
game is a player-action attempt, yet the server emits nothing at all — in
particular no `reject("观战不能落子")`. -/
theorem spectator_rematch_no_reject :
    roleFromToken "" gmSampleOverRoom = 0 ∧
    (gmHandleMessage gmSampleOverRoom ⟨""⟩ GmMsg.rematch 0).2 = [] := by
  constructor
  · rfl
  · rfl

theorem roleFromToken_cases (t : String) (room : GmRoom) :
    roleFromToken t room = 0 ∨ roleFromToken t room = GOMOKU_BLACK ∨
      roleFromToken t room = GOMOKU_WHITE := by
  unfold roleFromToken
  split_ifs <;> simp

theorem roleFromToken_black {t : String} {room : GmRoom}
    (h : roleFromToken t room = GOMOKU_BLACK) : t ≠ "" ∧ t = room.blackToken := by
  unfold roleFromToken at h
  split_ifs at h <;> simp_all [GOMOKU_BLACK, GOMOKU_WHITE]

theorem roleFromToken_white {t : String} {room : GmRoom}
    (h : roleFromToken t room = GOMOKU_WHITE) :
    t ≠ "" ∧ t ≠ room.blackToken ∧ t = room.whiteToken := by
  unfold roleFromToken at h
  split_ifs at h <;> simp_all [GOMOKU_BLACK, GOMOKU_WHITE]

/-- **C1 (amended).** Gomoku message handling depends on the attachment
only through `roleFromToken(att.token, current room)` — two attachments
whose tokens map to the same role behave identically, so a stolen or
replaced Gomoku seat token immediately resolves to role 0 and loses
authority.  The Xiangqi handler instead uses the role cached in the
attachment at connect time: for every message other than `xq_leave` the
resulting room record is independent of the attachment token, so a
stolen-seat Xiangqi connection keeps its player authority until it
reconnects. -/
theorem role_derivation_per_room
    (room : GmRoom) (att att2 : GmAtt) (msg : GmMsg) (now : Int)
    (hsame : roleFromToken att.token room = roleFromToken att2.token room)
    (xroom : XqRoom) (xrole : Int) (tok tok2 : String) (xmsg : XqMsg)
    (now2 : Int) (hx : xmsg ≠ XqMsg.xq_leave) :
    gmHandleMessage room att msg now = gmHandleMessage room att2 msg now ∧
    (xqHandleMessage xroom ⟨xrole, tok⟩ xmsg now2).1 =
      (xqHandleMessage xroom ⟨xrole, tok2⟩ xmsg now2).1 := by
  constructor
  · cases msg
    case gm_leave =>
      rcases roleFromToken_cases att2.token room with h | h | h
      · simp [gmHandleMessage, hsame, h, GOMOKU_BLACK, GOMOKU_WHITE]
      · have hA := hsame.trans h
        obtain ⟨ha1, ha2⟩ := roleFromToken_black hA
        obtain ⟨hb1, hb2⟩ := roleFromToken_black h
        simp [gmHandleMessage, hA, h, ha1, ha2, hb1, hb2, GOMOKU_BLACK, GOMOKU_WHITE]
      · have hA := hsame.trans h
        obtain ⟨ha1, ha2, ha3⟩ := roleFromToken_white hA
        obtain ⟨hb1, hb2, hb3⟩ := roleFromToken_white h
        simp [gmHandleMessage, hA, h, ha1, ha2, ha3, hb1, hb2, hb3,
          GOMOKU_BLACK, GOMOKU_WHITE]
    all_goals simp only [gmHandleMessage, hsame]
  · cases xmsg <;> first | (exact absurd rfl hx) | simp [xqHandleMessage]

/-- Witness for the amended C1: two distinct unknown tokens (both role 0)
behave identically in a fresh two-seat Gomoku room, and in the Xiangqi
room an `xq_timeout` yields the same record regardless of the token. -/
theorem role_derivation_per_room_witness :
    gmHandleMessage gmSampleRoom ⟨"zz"⟩ GmMsg.timeout 0 =
      gmHandleMessage gmSampleRoom ⟨"yy"⟩ GmMsg.timeout 0 ∧
    (xqHandleMessage xqSampleRoom ⟨1, "tR"⟩ XqMsg.xq_timeout 0).1 =
      (xqHandleMessage xqSampleRoom ⟨1, "stale"⟩ XqMsg.xq_timeout 0).1 :=
  role_derivation_per_room gmSampleRoom ⟨"zz"⟩ ⟨"yy"⟩ GmMsg.timeout 0 (by decide)
    xqSampleRoom 1 "tR" "stale" XqMsg.xq_timeout 0 (by decide)

/-- Counterexample to C1 as stated: in the Xiangqi room a connection whose
seat token has been stolen (its token matches neither current seat token)
still exercises player authority on its next message — its `xq_timeout`
ends the game — because `_handleXqMessage` uses the cached `att.role`. -/
theorem xq_stale_token_retains_authority :
    "oldStolen" ≠ xqStolenRoom.redToken ∧
    "oldStolen" ≠ xqStolenRoom.blackToken ∧
    xqStolenRoom.gameOver = false ∧
    (xqHandleMessage xqStolenRoom ⟨1, "oldStolen"⟩ XqMsg.xq_timeout 0).1.gameOver = true := by
  exact ⟨by decide, by decide, rfl, rfl⟩

/-- **C5.** A `swap` (resp. `xq_swap`) vote from a player is recorded only
when the game is over or no move has been played (otherwise the room and
output are untouched); once both roles have voted and both seat tokens are
non-empty, the two seat tokens and the two `lastSeen` values are
exchanged and the room is fully reset (`moves = []`, `current = A`,
`gameOver = false`, `winner = 0`, `reason = ""`, both vote maps
cleared). -/
theorem swap_vote_and_exchange
    (room : GmRoom) (att : GmAtt) (now : Int)
    (xroom : XqRoom) (xatt : XqAtt) (xnow : Int)
    (hp : roleFromToken att.token room = GOMOKU_BLACK ∨
      roleFromToken att.token room = GOMOKU_WHITE)
    (hxp : int32wrap xatt.role = XQ_RED ∨ int32wrap xatt.role = XQ_BLACK) :
    ((¬ room.gameOver = true ∧ room.moves ≠ []) →
      gmHandleMessage room att .swap now = (room, [])) ∧
    ((room.gameOver = true ∨ room.moves = []) →
      ¬ ((room.swap.set (roleFromToken att.token room) true).black = true ∧
          (room.swap.set (roleFromToken att.token room) true).white = true ∧
          room.blackToken ≠ "" ∧ room.whiteToken ≠ "") →
      (gmHandleMessage room att .swap now).1 =
        { room with swap := room.swap.set (roleFromToken att.token room) true }) ∧
    ((room.gameOver = true ∨ room.moves = []) →
      ((room.swap.set (roleFromToken att.token room) true).black = true ∧
        (room.swap.set (roleFromToken att.token room) true).white = true ∧
        room.blackToken ≠ "" ∧ room.whiteToken ≠ "") →
      (gmHandleMessage room att .swap now).1 =
        { room with
            blackToken := room.whiteToken, whiteToken := room.blackToken,
            blackLastSeen := room.whiteLastSeen, whiteLastSeen := room.blackLastSeen,
            moves := [], current := GOMOKU_BLACK, gameOver := false,
            winner := 0, reason := "",
            rematch := GmVotes.clear, swap := GmVotes.clear }) ∧
    ((¬ xroom.gameOver = true ∧ xroom.moves ≠ []) →
      xqHandleMessage xroom xatt .xq_swap xnow = (xroom, [])) ∧
    ((xroom.gameOver = true ∨ xroom.moves = []) →
      ¬ ((xroom.swap.set (int32wrap xatt.role) true).red = true ∧
          (xroom.swap.set (int32wrap xatt.role) true).black = true ∧
          xroom.redToken ≠ "" ∧ xroom.blackToken ≠ "") →
      (xqHandleMessage xroom xatt .xq_swap xnow).1 =
        { xroom with swap := xroom.swap.set (int32wrap xatt.role) true }) ∧
    ((xroom.gameOver = true ∨ xroom.moves = []) →
      ((xroom.swap.set (int32wrap xatt.role) true).red = true ∧
        (xroom.swap.set (int32wrap xatt.role) true).black = true ∧
        xroom.redToken ≠ "" ∧ xroom.blackToken ≠ "") →
      (xqHandleMessage xroom xatt .xq_swap xnow).1 =
        { xroom with
            redToken := xroom.blackToken, blackToken := xroom.redToken,
            redLastSeen := xroom.blackLastSeen, blackLastSeen := xroom.redLastSeen,
            moves := [], current := XQ_RED, gameOver := false,
            winner := 0, reason := "",
            rematch := XqVotes.clear, swap := XqVotes.clear }) := by
  refine ⟨?_, ?_, ?_, ?_, ?_, ?_⟩ <;> intros <;>
    first
    | (simp only [gmHandleMessage]
       split_ifs <;>
         simp_all [List.length_pos, GmVotes.get, XqVotes.get, GOMOKU_BLACK,
           GOMOKU_WHITE, XQ_RED, XQ_BLACK])
    | (simp only [xqHandleMessage]
       split_ifs <;>
         simp_all [List.length_pos, GmVotes.get, XqVotes.get, GOMOKU_BLACK,
           GOMOKU_WHITE, XQ_RED, XQ_BLACK])

/-- Witness for C5: in a fresh two-seat room where white has already voted
to swap, black's `swap` vote completes the exchange: tokens and
`lastSeen` swap and the room resets. -/
theorem swap_vote_and_exchange_witness :
    (gmHandleMessage gmSwapVoteRoom ⟨"tB"⟩ .swap 0).1 =
      { gmSwapVoteRoom with
          blackToken := gmSwapVoteRoom.whiteToken,
          whiteToken := gmSwapVoteRoom.blackToken,
          blackLastSeen := gmSwapVoteRoom.whiteLastSeen,
          whiteLastSeen := gmSwapVoteRoom.blackLastSeen,
          moves := [], current := GOMOKU_BLACK, gameOver := false,
          winner := 0, reason := "",
          rematch := GmVotes.clear, swap := GmVotes.clear } :=
  (swap_vote_and_exchange gmSwapVoteRoom ⟨"tB"⟩ 0 xqSampleRoom ⟨1, "tR"⟩ 0
      (by decide) (by decide)).2.2.1 (Or.inr rfl) (by decide)

/-- **C6.** The seat allocator is idempotent on reconnect with a valid
token: a presented token equal to the stored `tokenA` (resp. `tokenB`)
yields role A (resp. B), refreshes only that seat's `lastSeen` to `now`,
returns the presented token (no fresh token is minted) and leaves both
stored seat tokens unchanged — for the Gomoku and the Xiangqi
allocator alike. -/
theorem allocator_reconnect_idempotent
    (room : GmRoom) (t want fresh : String) (n1 n2 : Nat) (now : Int)
    (xroom : XqRoom) (xt xwant xfresh : String) (xn1 xn2 : Nat) (xnow : Int) :
    (t ≠ "" → t = room.blackToken →
      gmFetchAllocate room t want n1 n2 now fresh =
        ⟨GOMOKU_BLACK, t, { room with blackLastSeen := now }⟩) ∧
    (t ≠ "" → t ≠ room.blackToken → t = room.whiteToken →
      gmFetchAllocate room t want n1 n2 now fresh =
        ⟨GOMOKU_WHITE, t, { room with whiteLastSeen := now }⟩) ∧
    (xt ≠ "" → xt = xroom.redToken →
      xqFetchAllocate xroom xt xwant xn1 xn2 xnow xfresh =
        ⟨XQ_RED, xt, { xroom with redLastSeen := xnow }⟩) ∧
    (xt ≠ "" → xt ≠ xroom.redToken → xt = xroom.blackToken →
      xqFetchAllocate xroom xt xwant xn1 xn2 xnow xfresh =
        ⟨XQ_BLACK, xt, { xroom with blackLastSeen := xnow }⟩) := by
  refine ⟨?_, ?_, ?_, ?_⟩ <;> intros <;>
    simp_all [gmFetchAllocate, xqFetchAllocate, GOMOKU_BLACK, GOMOKU_WHITE,
      XQ_RED, XQ_BLACK]

/-- Witness for C6: reconnecting to `gmSampleRoom` with black's stored
token gets role BLACK back, the same token, and only a refreshed
`blackLastSeen`. -/
theorem allocator_reconnect_idempotent_witness :
    gmFetchAllocate gmSampleRoom "tB" "auto" 0 0 42 "freshUUID" =
      ⟨GOMOKU_BLACK, "tB", { gmSampleRoom with blackLastSeen := 42 }⟩ :=
  (allocator_reconnect_idempotent gmSampleRoom "tB" "auto" "freshUUID" 0 0 42
      xqSampleRoom "tR" "auto" "xfresh" 0 0 7).1 (by decide) (by decide)

set_option maxHeartbeats 1600000

theorem gm_steal_only_when
    (room : GmRoom) (t want fresh : String) (n1 n2 : Nat) (now : Int)
    (hnm : t = "" ∨ (t ≠ room.blackToken ∧ t ≠ room.whiteToken))
    (hocc : room.blackToken ≠ "")
    (hyou : (gmFetchAllocate room t want n1 n2 now fresh).you = GOMOKU_BLACK) :
    n1 = 0 ∧ now - room.blackLastSeen > GM_GRACE_MS := by
  simp only [gmFetchAllocate] at hyou
  rcases hnm with hnm | ⟨hnm1, hnm2⟩ <;>
    split_ifs at hyou <;> simp_all [GOMOKU_BLACK, GOMOKU_WHITE]

theorem gm_steal_only_when_white
    (room : GmRoom) (t want fresh : String) (n1 n2 : Nat) (now : Int)
    (hnm : t = "" ∨ (t ≠ room.blackToken ∧ t ≠ room.whiteToken))
    (hocc : room.whiteToken ≠ "")
    (hyou : (gmFetchAllocate room t want n1 n2 now fresh).you = GOMOKU_WHITE) :
    n2 = 0 ∧ now - room.whiteLastSeen > GM_GRACE_MS := by
  simp only [gmFetchAllocate] at hyou
  rcases hnm with hnm | ⟨hnm1, hnm2⟩ <;>
    split_ifs at hyou <;> simp_all [GOMOKU_BLACK, GOMOKU_WHITE]

theorem gm_steal_boundary
    (room : GmRoom) (t want fresh : String) (n1 n2 : Nat) (now : Int)
    (hnm : t = "" ∨ (t ≠ room.blackToken ∧ t ≠ room.whiteToken))
    (hocc : room.blackToken ≠ "")
    (hb : now - room.blackLastSeen = GM_GRACE_MS) :
    (gmFetchAllocate room t want n1 n2 now fresh).you ≠ GOMOKU_BLACK ∧
    (gmFetchAllocate room t want n1 n2 now fresh).room.blackToken =
      room.blackToken := by
  simp only [gmFetchAllocate]
  rcases hnm with hnm | ⟨hnm1, hnm2⟩ <;>
    split_ifs <;> simp_all [GOMOKU_BLACK, GOMOKU_WHITE]

theorem gm_steal_strict
    (room : GmRoom) (t fresh : String) (n2 : Nat) (now : Int)
    (hnm : t = "" ∨ (t ≠ room.blackToken ∧ t ≠ room.whiteToken))
    (hocc : room.blackToken ≠ "")
    (hidle : now - room.blackLastSeen > GM_GRACE_MS) :
    (gmFetchAllocate room t "black" 0 n2 now fresh).you = GOMOKU_BLACK ∧
    (gmFetchAllocate room t "black" 0 n2 now fresh).token = fresh ∧
    (gmFetchAllocate room t "black" 0 n2 now fresh).room.blackToken = fresh ∧
    (gmFetchAllocate room t "black" 0 n2 now fresh).room.blackLastSeen = now := by
  simp only [gmFetchAllocate]
  rcases hnm with hnm | ⟨hnm1, hnm2⟩ <;>
    split_ifs <;> simp_all [GOMOKU_BLACK, GOMOKU_WHITE]

theorem xq_steal_only_when
    (xroom : XqRoom) (xt xwant xfresh : String) (xn1 xn2 : Nat) (xnow : Int)
    (hxnm : xt = "" ∨ (xt ≠ xroom.redToken ∧ xt ≠ xroom.blackToken))
    (hocc : xroom.redToken ≠ "")
    (hyou : (xqFetchAllocate xroom xt xwant xn1 xn2 xnow xfresh).you = XQ_RED) :
    xn1 = 0 ∧ xnow - xroom.redLastSeen > XQ_GRACE_MS := by
  simp only [xqFetchAllocate] at hyou
  rcases hxnm with hxnm | ⟨hxnm1, hxnm2⟩ <;>
    split_ifs at hyou <;> simp_all [XQ_RED, XQ_BLACK]

theorem xq_steal_boundary
    (xroom : XqRoom) (xt xwant xfresh : String) (xn1 xn2 : Nat) (xnow : Int)
    (hxnm : xt = "" ∨ (xt ≠ xroom.redToken ∧ xt ≠ xroom.blackToken))
    (hocc : xroom.redToken ≠ "")
    (hb : xnow - xroom.redLastSeen = XQ_GRACE_MS) :
    (xqFetchAllocate xroom xt xwant xn1 xn2 xnow xfresh).you ≠ XQ_RED ∧
    (xqFetchAllocate xroom xt xwant xn1 xn2 xnow xfresh).room.redToken =
      xroom.redToken := by
  simp only [xqFetchAllocate]
  rcases hxnm with hxnm | ⟨hxnm1, hxnm2⟩ <;>
    split_ifs <;> simp_all [XQ_RED, XQ_BLACK]

theorem xq_steal_strict
    (xroom : XqRoom) (xt xfresh : String) (xn2 : Nat) (xnow : Int)
    (hxnm : xt = "" ∨ (xt ≠ xroom.redToken ∧ xt ≠ xroom.blackToken))
    (hocc : xroom.redToken ≠ "")
    (hidle : xnow - xroom.redLastSeen > XQ_GRACE_MS) :
    (xqFetchAllocate xroom xt "red" 0 xn2 xnow xfresh).you = XQ_RED ∧
    (xqFetchAllocate xroom xt "red" 0 xn2 xnow xfresh).token = xfresh ∧
    (xqFetchAllocate xroom xt "red" 0 xn2 xnow xfresh).room.redToken = xfresh ∧
    (xqFetchAllocate xroom xt "red" 0 xn2 xnow xfresh).room.redLastSeen =
      xnow := by
  simp only [xqFetchAllocate]
  rcases hxnm with hxnm | ⟨hxnm1, hxnm2⟩ <;>
    split_ifs <;> simp_all [XQ_RED, XQ_BLACK]

/-- **C4.** Without a matching token, an occupied seat changes hands only
when no attached connection resolves to it (`online = 0`) and
`now − lastSeen` strictly exceeds GRACE (3 minutes): taking an occupied
black (resp. white, resp. Xiangqi red) seat implies both conditions; at
exactly `now − lastSeen = GRACE` the seat is not stolen and its token
survives; with strictly greater idle time (and `online = 0`) a
`want=black` / `want=red` attempt does steal it, minting a fresh token. -/
theorem seat_steal_grace
    (room : GmRoom) (t want fresh : String) (n1 n2 : Nat) (now : Int)
    (xroom : XqRoom) (xt xwant xfresh : String) (xn1 xn2 : Nat) (xnow : Int)
    (hnm : t = "" ∨ (t ≠ room.blackToken ∧ t ≠ room.whiteToken))
    (hxnm : xt = "" ∨ (xt ≠ xroom.redToken ∧ xt ≠ xroom.blackToken)) :
    (room.blackToken ≠ "" →
      (gmFetchAllocate room t want n1 n2 now fresh).you = GOMOKU_BLACK →
      n1 = 0 ∧ now - room.blackLastSeen > GM_GRACE_MS) ∧
    (room.whiteToken ≠ "" →
      (gmFetchAllocate room t want n1 n2 now fresh).you = GOMOKU_WHITE →
      n2 = 0 ∧ now - room.whiteLastSeen > GM_GRACE_MS) ∧
    (room.blackToken ≠ "" → now - room.blackLastSeen = GM_GRACE_MS →
      (gmFetchAllocate room t want n1 n2 now fresh).you ≠ GOMOKU_BLACK ∧
      (gmFetchAllocate room t want n1 n2 now fresh).room.blackToken =
        room.blackToken) ∧
    (room.blackToken ≠ "" → now - room.blackLastSeen > GM_GRACE_MS →
      (gmFetchAllocate room t "black" 0 n2 now fresh).you = GOMOKU_BLACK ∧
      (gmFetchAllocate room t "black" 0 n2 now fresh).token = fresh ∧
      (gmFetchAllocate room t "black" 0 n2 now fresh).room.blackToken = fresh ∧
      (gmFetchAllocate room t "black" 0 n2 now fresh).room.blackLastSeen = now) ∧
    (xroom.redToken ≠ "" →
      (xqFetchAllocate xroom xt xwant xn1 xn2 xnow xfresh).you = XQ_RED →
      xn1 = 0 ∧ xnow - xroom.redLastSeen > XQ_GRACE_MS) ∧
    (xroom.redToken ≠ "" → xnow - xroom.redLastSeen = XQ_GRACE_MS →
      (xqFetchAllocate xroom xt xwant xn1 xn2 xnow xfresh).you ≠ XQ_RED ∧
      (xqFetchAllocate xroom xt xwant xn1 xn2 xnow xfresh).room.redToken =
        xroom.redToken) ∧
    (xroom.redToken ≠ "" → xnow - xroom.redLastSeen > XQ_GRACE_MS →
      (xqFetchAllocate xroom xt "red" 0 xn2 xnow xfresh).you = XQ_RED ∧
      (xqFetchAllocate xroom xt "red" 0 xn2 xnow xfresh).token = xfresh ∧
      (xqFetchAllocate xroom xt "red" 0 xn2 xnow xfresh).room.redToken =
        xfresh ∧
      (xqFetchAllocate xroom xt "red" 0 xn2 xnow xfresh).room.redLastSeen =
        xnow) :=
  ⟨fun hocc hyou => gm_steal_only_when room t want fresh n1 n2 now hnm hocc hyou,
   fun hocc hyou =>
     gm_steal_only_when_white room t want fresh n1 n2 now hnm hocc hyou,
   fun hocc hb => gm_steal_boundary room t want fresh n1 n2 now hnm hocc hb,
   fun hocc hidle => gm_steal_strict room t fresh n2 now hnm hocc hidle,
   fun hocc hyou =>
     xq_steal_only_when xroom xt xwant xfresh xn1 xn2 xnow hxnm hocc hyou,
   fun hocc hb => xq_steal_boundary xroom xt xwant xfresh xn1 xn2 xnow hxnm hocc hb,
   fun hocc hidle => xq_steal_strict xroom xt xfresh xn2 xnow hxnm hocc hidle⟩

/-- Witness for C4: a tokenless `want=black` attempt one millisecond past
the grace deadline steals the idle black seat and mints the fresh token;
the same attempt at exactly the deadline does not. -/
theorem seat_steal_grace_witness :
    ((gmFetchAllocate gmIdleRoom "" "black" 0 0 (GM_GRACE_MS + 1) "newUUID").you =
        GOMOKU_BLACK ∧
      (gmFetchAllocate gmIdleRoom "" "black" 0 0 (GM_GRACE_MS + 1) "newUUID").token =
        "newUUID" ∧
      (gmFetchAllocate gmIdleRoom "" "black" 0 0
          (GM_GRACE_MS + 1) "newUUID").room.blackToken = "newUUID" ∧
      (gmFetchAllocate gmIdleRoom "" "black" 0 0
          (GM_GRACE_MS + 1) "newUUID").room.blackLastSeen = GM_GRACE_MS + 1) ∧
    ((gmFetchAllocate gmIdleRoom "" "black" 0 0 GM_GRACE_MS "newUUID").you ≠
        GOMOKU_BLACK ∧
      (gmFetchAllocate gmIdleRoom "" "black" 0 0
          GM_GRACE_MS "newUUID").room.blackToken = gmIdleRoom.blackToken) :=
  ⟨(seat_steal_grace gmIdleRoom "" "black" "newUUID" 0 0 (GM_GRACE_MS + 1)
      xqSampleRoom "" "auto" "xf" 0 0 0 (Or.inl rfl) (Or.inl rfl)).2.2.2.1
      (by decide) (by decide),
   (seat_steal_grace gmIdleRoom "" "black" "newUUID" 0 0 GM_GRACE_MS
      xqSampleRoom "" "auto" "xf" 0 0 0 (Or.inl rfl) (Or.inl rfl)).2.2.1
      (by decide) (by decide)⟩

/-- **C10.** Gomoku and Xiangqi move coordinates pass through the `| 0`
coercion before any bounds check: every coerced field lies in
`[-2^31, 2^31)` (the handler is total — no coordinate value can make it
throw), missing (`undefined`) and NaN-producing fields coerce to `0`, a
`move` with absent `r` and `c` behaves exactly like a move at `(0, 0)`
(likewise `xq_move` with absent endpoints), and such a move is accepted
whenever cell `(0, 0)` is free and the usual preconditions hold. -/
theorem move_coercion_int32
    (room : GmRoom) (att : GmAtt) (now : Int)
    (xroom : XqRoom) (xatt : XqAtt) (xnow : Int) :
    (∀ v : JVal, -2147483648 ≤ toInt32 v ∧ toInt32 v < 2147483648) ∧
    toInt32 .undef = 0 ∧ toInt32 .nanLike = 0 ∧
    gmHandleMessage room att (.move .undef .undef) now =
      gmHandleMessage room att (.move (.num 0) (.num 0)) now ∧
    xqHandleMessage xroom xatt (.xq_move .undef .undef .undef .undef) xnow =
      xqHandleMessage xroom xatt
        (.xq_move (.num 0) (.num 0) (.num 0) (.num 0)) xnow ∧
    (((roleFromToken att.token room = GOMOKU_BLACK ∨
        roleFromToken att.token room = GOMOKU_WHITE) ∧
      room.gameOver = false ∧
      room.current = roleFromToken att.token room ∧
      isOccupied room.moves 0 0 = false) →
      (gmHandleMessage room att (.move .undef .undef) now).1.moves =
        room.moves ++ [⟨0, 0, roleFromToken att.token room⟩]) := by
  have h0 : toInt32 (.num 0) = 0 := by decide
  have hU : toInt32 .undef = 0 := rfl
  refine ⟨?_, rfl, rfl, ?_, ?_, ?_⟩
  · intro v
    match v with
    | .undef => exact ⟨by decide, by decide⟩
    | .nanLike => exact ⟨by decide, by decide⟩
    | .nullv => exact ⟨by decide, by decide⟩
    | .boolv b => cases b <;> exact ⟨by decide, by decide⟩
    | .num q =>
        simp only [toInt32]
        have h1 : (0 : Int) ≤ jsTrunc q % 4294967296 :=
          Int.emod_nonneg _ (by decide)
        have h2 : jsTrunc q % 4294967296 < 4294967296 :=
          Int.emod_lt_of_pos _ (by decide)
        split_ifs with h <;> omega
  · simp only [gmHandleMessage, h0, hU]
  · simp only [xqHandleMessage, h0, hU]
  · intro ⟨hp, hgo, hcur, hocc⟩
    simp only [gmHandleMessage, hU]
    split_ifs <;> simp_all [SIZE]

/-- Witness for C10: in a fresh two-seat room, black's `move` with both
coordinate fields absent is accepted as a stone at `(0, 0)`. -/
theorem move_coercion_int32_witness :
    (gmHandleMessage gmSampleRoom ⟨"tB"⟩ (GmMsg.move .undef .undef) 3).1.moves =
      gmSampleRoom.moves ++ [⟨0, 0, roleFromToken "tB" gmSampleRoom⟩] :=
  (move_coercion_int32 gmSampleRoom ⟨"tB"⟩ 3 xqSampleRoom ⟨1, "tR"⟩ 0).2.2.2.2.2
    (by decide)

/-- **C9.** For every Xiangqi state reachable by server-accepted moves,
rebuilding the engine by replaying the persisted moves list from the
initial position (`buildXqEngineFromMoves`) yields the same board and
turn as the incremental engine that applied each accepted move one at a
time. -/
theorem replay_eq_incremental (ms : List XqMoveRec) (e : XqEngine)
    (h : XqIncremental ms e) : buildXqEngineFromMoves ms = e := by
  induction h with
  | nil => rfl
  | step ms e rec m hms hfind ih =>
      unfold buildXqEngineFromMoves
      rw [List.foldl_append]
      unfold buildXqEngineFromMoves at ih
      rw [ih]
      simp only [List.foldl_cons, List.foldl_nil, xqStep, hfind]

/-- Witness for C9 at the empty accepted-move list. -/
theorem replay_eq_incremental_witness :
    buildXqEngineFromMoves [] = XqEngine.start :=
  replay_eq_incremental [] XqEngine.start XqIncremental.nil

theorem cannonRay_sound (b : XqBoard) (color : Int) (r c dr dc : Int) :
    ∀ (fuel i : Nat) (platform : Bool) (m : XqMove),
      m ∈ cannonRay b color r c dr dc fuel (i : Int) platform →
      ∃ k : Nat, i ≤ k ∧
        (∀ j : Nat, i ≤ j → j ≤ k → xqInB (r + dr * j) (c + dc * j) = true) ∧
        (if platform then
          ∃ t : XqPiece,
            (∀ j : Nat, i ≤ j → j < k → rayCell b r c dr dc j = none) ∧
            rayCell b r c dr dc k = some t ∧ t.c ≠ color ∧
            m = capMove r c dr dc k t
        else
          ((∀ j : Nat, i ≤ j → j ≤ k → rayCell b r c dr dc j = none) ∧
            m = ncMove r c dr dc k) ∨
          ∃ s : Nat, ∃ t : XqPiece, i ≤ s ∧ s < k ∧
            (rayCell b r c dr dc s).isSome = true ∧
            (∀ j : Nat, i ≤ j → j < k → j ≠ s → rayCell b r c dr dc j = none) ∧
            rayCell b r c dr dc k = some t ∧ t.c ≠ color ∧
            m = capMove r c dr dc k t) := by
  intro fuel
  induction fuel with
  | zero => intro i platform m hm; simp [cannonRay] at hm
  | succ fuel ih =>
      intro i platform m hm
      have hcast : ((i + 1 : Nat) : Int) = (i : Int) + 1 := by push_cast; ring
      by_cases hin : xqInB (r + dr * i) (c + dc * i) = true
      · cases hcell : bget b (r + dr * (i : Int)) (c + dc * (i : Int)) with
        | none =>
            cases platform with
            | false =>
                simp only [cannonRay, hin, hcell, not_true, Bool.true_eq_false,
                  if_false, ite_false, Bool.not_true, List.mem_cons] at hm
                rcases hm with rfl | hm
                · -- the non-capture emitted at step i itself
                  refine ⟨i, le_refl i, ?_, ?_⟩
                  · intro j hj1 hj2
                    have : j = i := le_antisymm hj2 hj1
                    subst this; exact hin
                  · simp only [if_neg Bool.false_ne_true]
                    left
                    refine ⟨?_, rfl⟩
                    intro j hj1 hj2
                    have : j = i := le_antisymm hj2 hj1
                    subst this
                    simpa [rayCell] using hcell
                · -- tail: recurse from i+1, still no platform
                  rw [← hcast] at hm
                  obtain ⟨k, hk1, hkin, hkspec⟩ := ih (i + 1) false m hm
                  refine ⟨k, by omega, ?_, ?_⟩
                  · intro j hj1 hj2
                    rcases eq_or_lt_of_le hj1 with h | h
                    · subst h; exact hin
                    · exact hkin j (by omega) hj2
                  · simp only [if_neg Bool.false_ne_true] at hkspec ⊢
                    rcases hkspec with ⟨hemp, hm2⟩ | ⟨s, t, hs1, hs2, hocc, hemp, hck, htc, hm2⟩
                    · left
                      refine ⟨?_, hm2⟩
                      intro j hj1 hj2
                      rcases eq_or_lt_of_le hj1 with h | h
                      · subst h; simpa [rayCell] using hcell
                      · exact hemp j (by omega) hj2
                    · right
                      refine ⟨s, t, by omega, hs2, hocc, ?_, hck, htc, hm2⟩
                      intro j hj1 hj2 hj3
                      rcases eq_or_lt_of_le hj1 with h | h
                      · subst h; simpa [rayCell] using hcell
                      · exact hemp j (by omega) hj2 hj3
            | true =>
                simp only [cannonRay, hin, hcell, not_true, if_false, ite_false,
                  Bool.not_true] at hm
                rw [← hcast] at hm
                obtain ⟨k, hk1, hkin, hkspec⟩ := ih (i + 1) true m hm
                refine ⟨k, by omega, ?_, ?_⟩
                · intro j hj1 hj2
                  rcases eq_or_lt_of_le hj1 with h | h
                  · subst h; exact hin
                  · exact hkin j (by omega) hj2
                · simp only [if_pos rfl] at hkspec ⊢
                  obtain ⟨t, hemp, hck, htc, hm2⟩ := hkspec
                  refine ⟨t, ?_, hck, htc, hm2⟩
                  intro j hj1 hj2
                  rcases eq_or_lt_of_le hj1 with h | h
                  · subst h; simpa [rayCell] using hcell
                  · exact hemp j (by omega) hj2
        | some t =>
            cases platform with
            | false =>
                simp only [cannonRay, hin, hcell, not_true, if_false, ite_false,
                  Bool.not_true] at hm
                rw [← hcast] at hm
                obtain ⟨k, hk1, hkin, hkspec⟩ := ih (i + 1) true m hm
                refine ⟨k, by omega, ?_, ?_⟩
                · intro j hj1 hj2
                  rcases eq_or_lt_of_le hj1 with h | h
                  · subst h; exact hin
                  · exact hkin j (by omega) hj2
                · simp only [if_pos rfl] at hkspec
                  simp only [if_neg Bool.false_ne_true]
                  obtain ⟨t2, hemp, hck, htc, hm2⟩ := hkspec
                  right
                  refine ⟨i, t2, le_refl i, by omega, ?_, ?_, hck, htc, hm2⟩
                  · simp [rayCell, hcell]
                  · intro j hj1 hj2 hj3
                    exact hemp j (by omega) hj2
            | true =>
                simp only [cannonRay, hin, hcell, not_true, if_false, ite_false,
                  Bool.not_true] at hm
                by_cases htc : t.c = color
                · simp [htc] at hm
                · simp only [ne_eq, htc, not_false_iff, if_pos, List.mem_singleton] at hm
                  subst hm
                  refine ⟨i, le_refl i, ?_, ?_⟩
                  · intro j hj1 hj2
                    have : j = i := le_antisymm hj2 hj1
                    subst this; exact hin
                  · simp only [if_pos rfl]
                    refine ⟨t, ?_, ?_, htc, rfl⟩
                    · intro j hj1 hj2; omega
                    · simpa [rayCell] using hcell
      · rw [show (fuel + 1) = Nat.succ fuel from rfl] at hm
        simp [cannonRay, hin] at hm

theorem cannonRay_complete (b : XqBoard) (color : Int) (r c dr dc : Int) :
    ∀ (fuel i : Nat) (platform : Bool) (m : XqMove) (k : Nat),
      i ≤ k → k - i < fuel →
      (∀ j : Nat, i ≤ j → j ≤ k → xqInB (r + dr * j) (c + dc * j) = true) →
      (if platform then
        ∃ t : XqPiece,
          (∀ j : Nat, i ≤ j → j < k → rayCell b r c dr dc j = none) ∧
          rayCell b r c dr dc k = some t ∧ t.c ≠ color ∧
          m = capMove r c dr dc k t
      else
        ((∀ j : Nat, i ≤ j → j ≤ k → rayCell b r c dr dc j = none) ∧
          m = ncMove r c dr dc k) ∨
        ∃ s : Nat, ∃ t : XqPiece, i ≤ s ∧ s < k ∧
          (rayCell b r c dr dc s).isSome = true ∧
          (∀ j : Nat, i ≤ j → j < k → j ≠ s → rayCell b r c dr dc j = none) ∧
          rayCell b r c dr dc k = some t ∧ t.c ≠ color ∧
          m = capMove r c dr dc k t) →
      m ∈ cannonRay b color r c dr dc fuel (i : Int) platform := by
  intro fuel
  induction fuel with
  | zero => intro i platform m k hik hfuel hkin hspec; omega
  | succ fuel ih =>
      intro i platform m k hik hfuel hkin hspec
      have hcast : ((i + 1 : Nat) : Int) = (i : Int) + 1 := by push_cast; ring
      have hin : xqInB (r + dr * i) (c + dc * i) = true :=
        hkin i (le_refl i) hik
      cases platform with
      | false =>
          simp only [if_neg Bool.false_ne_true] at hspec
          rcases hspec with ⟨hemp, rfl⟩ | ⟨s, t, hs1, hs2, hocc, hemp, hck, htc, rfl⟩
          · have hcell : bget b (r + dr * (i : Int)) (c + dc * (i : Int)) = none := by
              simpa [rayCell] using hemp i (le_refl i) hik
            simp only [cannonRay, hin, hcell, not_true, if_false, ite_false,
              Bool.not_true, List.mem_cons]
            rcases eq_or_lt_of_le hik with h | h
            · left
              subst h
              rfl
            · right
              rw [← hcast]
              refine ih (i + 1) false _ k (by omega) (by omega) ?_ ?_
              · intro j hj1 hj2; exact hkin j (by omega) hj2
              · simp only [if_neg Bool.false_ne_true]
                left
                exact ⟨fun j hj1 hj2 => hemp j (by omega) hj2, by trivial⟩
          · rcases eq_or_lt_of_le hs1 with hsi | hsi
            · -- the screen sits at step i itself: enter platform mode
              obtain ⟨t0, ht0⟩ := Option.isSome_iff_exists.mp hocc
              have hcell : bget b (r + dr * (i : Int)) (c + dc * (i : Int)) = some t0 := by
                rw [← hsi] at ht0
                simpa [rayCell] using ht0
              simp only [cannonRay, hin, hcell, not_true, if_false, ite_false,
                Bool.not_true]
              rw [← hcast]
              refine ih (i + 1) true _ k (by omega) (by omega) ?_ ?_
              · intro j hj1 hj2; exact hkin j (by omega) hj2
              · simp only [if_pos rfl]
                refine ⟨t, ?_, hck, htc, rfl⟩
                intro j hj1 hj2
                exact hemp j (by omega) hj2 (by omega)
            · -- the screen is farther out: step i is empty, stay in phase 1
              have hcell : bget b (r + dr * (i : Int)) (c + dc * (i : Int)) = none := by
                simpa [rayCell] using hemp i (le_refl i) (by omega) (by omega)
              simp only [cannonRay, hin, hcell, not_true, if_false, ite_false,
                Bool.not_true, List.mem_cons]
              right
              rw [← hcast]
              refine ih (i + 1) false _ k (by omega) (by omega) ?_ ?_
              · intro j hj1 hj2; exact hkin j (by omega) hj2
              · simp only [if_neg Bool.false_ne_true]
                right
                refine ⟨s, t, by omega, hs2, hocc, ?_, hck, htc, rfl⟩
                intro j hj1 hj2 hj3
                exact hemp j (by omega) hj2 hj3
      | true =>
          simp only [if_pos rfl] at hspec
          obtain ⟨t, hemp, hck, htc, rfl⟩ := hspec
          rcases eq_or_lt_of_le hik with h | h
          · subst h
            have hcell : bget b (r + dr * (i : Int)) (c + dc * (i : Int)) = some t := by
              simpa [rayCell] using hck
            simp [cannonRay, hin, hcell, htc, capMove]
          · have hcell : bget b (r + dr * (i : Int)) (c + dc * (i : Int)) = none := by
              simpa [rayCell] using hemp i (le_refl i) h
            simp only [cannonRay, hin, hcell, not_true, if_false, ite_false,
              Bool.not_true]
            rw [← hcast]
            refine ih (i + 1) true _ k (by omega) (by omega) ?_ ?_
            · intro j hj1 hj2; exact hkin j (by omega) hj2
            · simp only [if_pos rfl]
              exact ⟨t, fun j hj1 hj2 => hemp j (by omega) hj2, hck, htc, rfl⟩

theorem ray_step_le (d : Int × Int) (hd : d ∈ xqOrthoDirs) (r c : Int) (k : Nat)
    (h0 : xqInB r c = true) (hk : xqInB (r + d.1 * k) (c + d.2 * k) = true) :
    k ≤ 9 := by
  simp only [xqOrthoDirs, List.mem_cons, List.mem_singleton,
    List.not_mem_nil, or_false] at hd
  simp only [xqInB, XQ_ROWS, XQ_COLS, decide_eq_true_eq] at h0 hk
  rcases hd with rfl | rfl | rfl | rfl <;> simp at hk <;> omega

/-- **C7.** For every board, a cannon's pseudo-legal move set contains
exactly, per orthogonal ray: every empty square before the first occupied
square as a non-capture, and as the only capture an enemy piece that is
the first occupied square after exactly one intervening occupied square
(the screen); nothing lands on or beyond a second screen. -/
theorem cannon_raw_moves_exact (b : XqBoard) (color : Int) (r c : Int)
    (hin : xqInB r c = true) (m : XqMove) :
    m ∈ getRawMoves b r c XQ_ROLES.C color ↔
      ∃ d ∈ xqOrthoDirs, cannonRaySpec b color r c d.1 d.2 m := by
  have hCR : XQ_ROLES.C ≠ XQ_ROLES.R := by decide
  constructor
  · intro hm
    rw [getRawMoves, if_neg hCR, if_pos rfl, List.mem_flatMap] at hm
    obtain ⟨d, hd, hray⟩ := hm
    refine ⟨d, hd, ?_⟩
    have := cannonRay_sound b color r c d.1 d.2 10 1 false m (by exact_mod_cast hray)
    obtain ⟨k, hk1, hkin, hkspec⟩ := this
    simp only [if_neg Bool.false_ne_true] at hkspec
    exact ⟨k, hk1, hkin, hkspec⟩
  · intro hm
    obtain ⟨d, hd, k, hk1, hkin, hkspec⟩ := hm
    rw [getRawMoves, if_neg hCR, if_pos rfl, List.mem_flatMap]
    refine ⟨d, hd, ?_⟩
    have hk9 : k ≤ 9 := ray_step_le d hd r c k hin (hkin k hk1 (le_refl k))
    have := cannonRay_complete b color r c d.1 d.2 10 1 false m k hk1
      (by omega) hkin (by simp only [if_neg Bool.false_ne_true]; exact hkspec)
    exact_mod_cast this

/-- Witness for C7: on the initial board the red cannon at `(7, 1)` has
the screen-capture of the black horse at `(0, 1)` (over the black cannon
screen at `(2, 1)`), and the specification predicate certifies it. -/
theorem cannon_raw_moves_exact_witness :
    ∃ d ∈ xqOrthoDirs,
      cannonRaySpec XqEngine.start.board XQ_RED_COLOR 7 1 d.1 d.2
        ⟨⟨7, 1⟩, ⟨0, 1⟩, some ⟨XQ_ROLES.H, XQ_BLACK_COLOR⟩⟩ :=
  (cannon_raw_moves_exact XqEngine.start.board XQ_RED_COLOR 7 1 (by decide)
    ⟨⟨7, 1⟩, ⟨0, 1⟩, some ⟨XQ_ROLES.H, XQ_BLACK_COLOR⟩⟩).mp (by decide)

/-- **C3.** After an accepted Xiangqi move by `role`, if the opponent has
no legal move (pseudo-legal moves filtered by check simulation all fail),
the room becomes `gameOver` with `winner = role` and
`reason = "绝杀"` when the opponent is in check, `"困毙"` otherwise; the
`xq_move` broadcast carries the merged `win`/`reason`, followed by an
`xq_over` broadcast. -/
theorem xq_move_terminal_detection
    (room : XqRoom) (att : XqAtt) (frv fcv trv tcv : JVal) (now : Int)
    (legal : XqMove)
    (hp : int32wrap att.role = XQ_RED ∨ int32wrap att.role = XQ_BLACK)
    (hgo : room.gameOver = false)
    (hcur : room.current = int32wrap att.role)
    (hfb : ¬ (toInt32 frv < 0 ∨ toInt32 frv ≥ 10 ∨ toInt32 fcv < 0 ∨ toInt32 fcv ≥ 9))
    (htb : ¬ (toInt32 trv < 0 ∨ toInt32 trv ≥ 10 ∨ toInt32 tcv < 0 ∨ toInt32 tcv ≥ 9))
    (hsync : (buildXqEngineFromMoves room.moves).turn =
      (if int32wrap att.role = XQ_RED then 1 else -1))
    (hlegal : (buildXqEngineFromMoves room.moves).findLegalMove (toInt32 frv)
        (toInt32 fcv) (toInt32 trv) (toInt32 tcv) = some legal)
    (hempty : ((buildXqEngineFromMoves room.moves).applyMove legal).getMoves
        (if (if int32wrap att.role = XQ_RED then XQ_BLACK else XQ_RED) = XQ_RED
          then 1 else -1) = []) :
    (xqHandleMessage room att (.xq_move frv fcv trv tcv) now).1.gameOver = true ∧
    (xqHandleMessage room att (.xq_move frv fcv trv tcv) now).1.winner =
      int32wrap att.role ∧
    (xqHandleMessage room att (.xq_move frv fcv trv tcv) now).1.reason =
      (if ((buildXqEngineFromMoves room.moves).applyMove legal).isChecked
          (if (if int32wrap att.role = XQ_RED then XQ_BLACK else XQ_RED) = XQ_RED
            then 1 else -1)
        then "绝杀" else "困毙") ∧
    (xqHandleMessage room att (.xq_move frv fcv trv tcv) now).2 =
      [.xqMove (toInt32 frv) (toInt32 fcv) (toInt32 trv) (toInt32 tcv)
        (int32wrap att.role)
        (if int32wrap att.role = XQ_RED then XQ_BLACK else XQ_RED)
        (some (int32wrap att.role,
          if ((buildXqEngineFromMoves room.moves).applyMove legal).isChecked
              (if (if int32wrap att.role = XQ_RED then XQ_BLACK else XQ_RED) = XQ_RED
                then 1 else -1)
            then "绝杀" else "困毙")),
       .xqOver (int32wrap att.role)
        (if ((buildXqEngineFromMoves room.moves).applyMove legal).isChecked
            (if (if int32wrap att.role = XQ_RED then XQ_BLACK else XQ_RED) = XQ_RED
              then 1 else -1)
          then "绝杀" else "困毙")] := by
  have hne : ¬ ¬ (int32wrap att.role = XQ_RED ∨ int32wrap att.role = XQ_BLACK) :=
    not_not_intro hp
  simp only [xqHandleMessage]
  rw [if_neg hne, if_neg (by simp [hgo]), if_neg (fun h => h hcur),
    if_neg hfb, if_neg htb, if_neg (fun h => h hsync), hlegal]
  simp only [hempty, List.isEmpty_nil, if_pos rfl, ite_true]
  exact ⟨trivial, trivial, trivial, by simp⟩

theorem xqMateStep1 : xqStep XqEngine.start ⟨⟨6,0⟩,⟨5,0⟩,1⟩ = xqMateE1 := by
  decide

theorem xqMateStep2 : xqStep xqMateE1 ⟨⟨2,7⟩,⟨1,7⟩,2⟩ = xqMateE2 := by
  decide

theorem xqMateStep3 : xqStep xqMateE2 ⟨⟨6,2⟩,⟨5,2⟩,1⟩ = xqMateE3 := by
  decide

theorem xqMateStep4 : xqStep xqMateE3 ⟨⟨1,7⟩,⟨1,5⟩,2⟩ = xqMateE4 := by
  decide

theorem xqMateStep5 : xqStep xqMateE4 ⟨⟨7,7⟩,⟨2,7⟩,1⟩ = xqMateE5 := by
  decide

theorem xqMateStep6 : xqStep xqMateE5 ⟨⟨2,1⟩,⟨1,1⟩,2⟩ = xqMateE6 := by
  decide

theorem xqMateStep7 : xqStep xqMateE6 ⟨⟨6,6⟩,⟨5,6⟩,1⟩ = xqMateE7 := by
  decide

theorem xqMateStep8 : xqStep xqMateE7 ⟨⟨1,1⟩,⟨1,3⟩,2⟩ = xqMateE8 := by
  decide

theorem xqMateStep9 : xqStep xqMateE8 ⟨⟨6,8⟩,⟨5,8⟩,1⟩ = xqMateE9 := by
  decide

theorem xqMateStep10 : xqStep xqMateE9 ⟨⟨0,1⟩,⟨2,2⟩,2⟩ = xqMateE10 := by
  decide

theorem xqMateStep11 : xqStep xqMateE10 ⟨⟨5,0⟩,⟨4,0⟩,1⟩ = xqMateE11 := by
  decide

theorem xqMateStep12 : xqStep xqMateE11 ⟨⟨2,2⟩,⟨1,4⟩,2⟩ = xqMateE12 := by
  decide

theorem xqMate_replay : buildXqEngineFromMoves xqMateLine = xqMateE12 := by
  simp only [buildXqEngineFromMoves, xqMateLine, List.foldl_cons, List.foldl_nil,
    xqMateStep1, xqMateStep2, xqMateStep3, xqMateStep4, xqMateStep5, xqMateStep6,
    xqMateStep7, xqMateStep8, xqMateStep9, xqMateStep10, xqMateStep11, xqMateStep12]

theorem xqMateLegalFound :
    xqMateE12.findLegalMove 2 7 2 4 = some xqMateLegal := by
  decide

theorem xqMateOppEmpty :
    (xqMateE12.applyMove xqMateLegal).getMoves (-1) = [] := by
  decide

theorem xqMateInCheck :
    (xqMateE12.applyMove xqMateLegal).isChecked (-1) = true := by
  decide

/-- Witness for C3: in `xqMateRoom` (a real twelve-ply position) red's
cannon move `(2,7) → (2,4)` leaves black without a legal reply while in
check, so the room ends with `winner = 1`, `reason = "绝杀"`. -/
theorem xq_move_terminal_detection_witness :
    (xqHandleMessage xqMateRoom ⟨1, "tR"⟩
        (.xq_move (.num 2) (.num 7) (.num 2) (.num 4)) 0).1.gameOver = true ∧
    (xqHandleMessage xqMateRoom ⟨1, "tR"⟩
        (.xq_move (.num 2) (.num 7) (.num 2) (.num 4)) 0).1.winner = 1 ∧
    (xqHandleMessage xqMateRoom ⟨1, "tR"⟩
        (.xq_move (.num 2) (.num 7) (.num 2) (.num 4)) 0).1.reason = "绝杀" := by
  have h2 : toInt32 (JVal.num 2) = 2 := by decide
  have h7 : toInt32 (JVal.num 7) = 7 := by decide
  have h4 : toInt32 (JVal.num 4) = 4 := by decide
  have hmv : xqMateRoom.moves = xqMateLine := rfl
  obtain ⟨hA, hB, hC, hD⟩ :=
    xq_move_terminal_detection xqMateRoom ⟨1, "tR"⟩ (.num 2) (.num 7) (.num 2)
      (.num 4) 0 xqMateLegal (Or.inl (by decide)) rfl (by decide)
      (by decide) (by decide)
      (by rw [hmv, xqMate_replay]; decide)
      (by
        have h := xqMateLegalFound
        rw [hmv, h2, h7, h4, xqMate_replay]
        exact h)
      (by
        have h := xqMateOppEmpty
        rw [hmv, xqMate_replay]
        exact h)
  refine ⟨hA, ?_, ?_⟩
  · rw [hB]; decide
  · rw [hC, hmv, xqMate_replay]
    decide
